import Mathlib

/-!
A shallow embedding of the caching engine of `src/utils/property_cache.py`
(class `PropertyCache`): its three SQLite-backed tables, the in-memory
tier (`memory_cache` / `memory_cache_ttl`), the statistics recorder and
the public operations.

Modelling conventions:
* Timestamps are integers (seconds); `timedelta(days=d)` is `d * dayLen`
  and the calendar date `strftime('%Y-%m-%d')` of a timestamp is its
  floor division by `dayLen` (ISO date strings compare exactly like the
  integers they denote).  Each operation receives the single wall-clock
  reading `now` used throughout its body.
* SQLite REAL values (`cost_saved`, `hit_rate`) are modelled as exact
  rationals.
* Payload values and pickle blobs are type parameters `V` and `B`; the
  pickle module is a fallible encoder/decoder pair (`dumps` / `loads`
  return `Option`, `none` standing for a raised exception, which the
  source catches inside its `try` blocks).
* A `fault : Bool` argument on an operation models `sqlite3.connect`
  raising at the start of the operation's `try` block (storage-layer
  failure); the nested `_update_stats` connections are taken fault-free.
* Python dictionaries are association lists with unique keys; `del` on a
  missing key is the `KeyError` case, surfaced as `Except.error`.
-/

namespace PropertyCache

/-- Length of one day in timestamp units (seconds). -/
def dayLen : Int := 86400

/-- Calendar date of a timestamp, as used by `strftime('%Y-%m-%d')`:
floor division by `dayLen` (on `Int`, `/` is Euclidean division, which is
floor division for the positive divisor `dayLen`). -/
def dateOf (t : Int) : Int := t / dayLen

/-- `cost_per_token = 0.00001` from `_update_stats`. -/
def costPerToken : ℚ := 1 / 100000

/-- Python `ttl_days or self.ttl_days` (lines 180 and 271): `None` and the
falsy integer `0` select the instance default, any other integer is kept. -/
def pyOr (o : Option Int) (d : Int) : Int :=
  match o with
  | none => d
  | some t => if t = 0 then d else t

/-! ### Python dictionaries as association lists -/

/-- Dictionary lookup (`d.get(k)` / `d[k]` when present). -/
def dget (k : String) : List (String × α) → Option α
  | [] => none
  | (k', v) :: rest => if k' = k then some v else dget k rest

/-- Remove a key (the effect of a successful `del d[k]`). -/
def derase (k : String) (l : List (String × α)) : List (String × α) :=
  l.filter (fun p => p.1 != k)

/-- Dictionary update `d[k] = v`. -/
def dput (k : String) (v : α) (l : List (String × α)) : List (String × α) :=
  derase k l ++ [(k, v)]

@[simp] theorem dget_nil (k : String) : dget k ([] : List (String × α)) = none := rfl

theorem dget_derase (k k' : String) (l : List (String × α)) :
    dget k (derase k' l) = if k' = k then none else dget k l := by
  induction l with
  | nil => simp [derase, dget]
  | cons p t ih =>
    by_cases hp : p.1 = k'
    · have hfil : derase k' (p :: t) = derase k' t := by
        simp [derase, List.filter_cons, hp]
      rw [hfil, ih]
      by_cases hk : k' = k
      · simp [hk]
      · have hq : p.1 ≠ k := by rw [hp]; exact hk
        simp [dget, hq, hk]
    · have hfil : derase k' (p :: t) = p :: derase k' t := by
        simp [derase, List.filter_cons, hp]
      rw [hfil]
      by_cases hq : p.1 = k
      · have hk : ¬(k' = k) := fun hkk => hp (hq.trans hkk.symm)
        simp [dget, hq, hk]
      · simp [dget, hq, ih]

@[simp] theorem dget_derase_self (k : String) (l : List (String × α)) :
    dget k (derase k l) = none := by simp [dget_derase]

theorem dget_derase_ne (k k' : String) (h : k' ≠ k) (l : List (String × α)) :
    dget k (derase k' l) = dget k l := by simp [dget_derase, h]

theorem dget_append_some (k : String) {l₁ : List (String × α)} {v : α}
    (h : dget k l₁ = some v) (l₂ : List (String × α)) : dget k (l₁ ++ l₂) = some v := by
  induction l₁ with
  | nil => simp [dget] at h
  | cons p t ih =>
    by_cases hp : p.1 = k
    · simp [dget, hp] at h ⊢; exact h
    · simp [dget, hp] at h ⊢; exact ih h

theorem dget_append_none (k : String) {l₁ : List (String × α)}
    (h : dget k l₁ = none) (l₂ : List (String × α)) : dget k (l₁ ++ l₂) = dget k l₂ := by
  induction l₁ with
  | nil => simp
  | cons p t ih =>
    by_cases hp : p.1 = k
    · simp [dget, hp] at h
    · simp [dget, hp] at h ⊢; exact ih h

@[simp] theorem dget_dput_self (k : String) (v : α) (l : List (String × α)) :
    dget k (dput k v l) = some v := by
  rw [dput, dget_append_none k (dget_derase_self k l)]; simp [dget]

theorem dget_dput_ne (k k' : String) (h : k' ≠ k) (v : α) (l : List (String × α)) :
    dget k (dput k' v l) = dget k l := by
  rw [dput]
  cases hv : dget k (derase k' l) with
  | some w =>
    rw [dget_append_some k hv]
    rw [dget_derase_ne _ _ h] at hv
    exact hv.symm
  | none =>
    rw [dget_append_none k hv]
    rw [dget_derase_ne _ _ h] at hv
    simp [dget, h, hv]

/-! ### Rows of the three tables -/

/-- A row of `gpt_analysis_cache`. -/
structure AnalysisRow (B : Type) where
  content_hash : String
  request_data : String
  response_data : B
  created_at : Int
  expires_at : Int
  model : String
  token_count : Int
deriving DecidableEq

/-- A row of `property_data_cache`. -/
structure PropRow (B : Type) where
  property_id : String
  data : B
  source_url : String
  created_at : Int
  expires_at : Int
  last_accessed : Int
deriving DecidableEq

/-- A row of `cache_stats`. -/
structure StatRow where
  date : Int
  api_calls : Int
  cache_hits : Int
  tokens_saved : Int
  cost_saved : ℚ
deriving DecidableEq

/-- The mutable state of a `PropertyCache` object: the three SQLite tables,
the two in-memory dictionaries, and the configured default TTL. -/
structure CacheState (V B : Type) where
  gpt : List (AnalysisRow B)
  prop : List (PropRow B)
  stats : List StatRow
  memory_cache : List (String × V)
  memory_cache_ttl : List (String × Int)
  ttl_days : Int
deriving DecidableEq

/-- The ambient functions the cache is built on: `hashlib.md5(...).hexdigest()`
(as a function of the hashed string) and `pickle.dumps` / `pickle.loads`
(fallible; a blob produced by a successful `dumps` decodes back to its value). -/
structure Env (V B : Type) where
  md5hex : String → String
  dumps : V → Option B
  loads : B → Option V
  load_dump : ∀ v b, dumps v = some b → loads b = some v

/-- The state of a freshly constructed cache: empty tables, empty memory tier. -/
def initState (V B : Type) (ttl_days : Int) : CacheState V B :=
  ⟨[], [], [], [], [], ttl_days⟩

/-- `_init_db` (and hence the constructor): idempotently creates the schema;
an `sqlite3.Error` is re-raised (`raise`, line 94) rather than swallowed. -/
def constructCache (V B : Type) (ttl_days : Int) (fault : Bool) :
    Except Unit (CacheState V B) :=
  if fault then .error () else .ok (initState V B ttl_days)

/-! ### SQL helpers -/

/-- `SELECT ... FROM gpt_analysis_cache WHERE content_hash = ? AND model = ?`. -/
def findAnalysis (tbl : List (AnalysisRow B)) (h m : String) : Option (AnalysisRow B) :=
  tbl.find? (fun r => r.content_hash == h && r.model == m)

/-- `DELETE FROM gpt_analysis_cache WHERE content_hash = ?`. -/
def eraseAnalysis (tbl : List (AnalysisRow B)) (h : String) : List (AnalysisRow B) :=
  tbl.filter (fun r => r.content_hash != h)

/-- `INSERT OR REPLACE INTO gpt_analysis_cache ...` (`content_hash` is the
primary key). -/
def replaceAnalysis (tbl : List (AnalysisRow B)) (h : String) (row : AnalysisRow B) :
    List (AnalysisRow B) :=
  eraseAnalysis tbl h ++ [row]

/-- `SELECT ... FROM property_data_cache WHERE property_id = ?`. -/
def findProp (tbl : List (PropRow B)) (pid : String) : Option (PropRow B) :=
  tbl.find? (fun r => r.property_id == pid)

/-- `DELETE FROM property_data_cache WHERE property_id = ?`. -/
def eraseProp (tbl : List (PropRow B)) (pid : String) : List (PropRow B) :=
  tbl.filter (fun r => r.property_id != pid)

/-- `INSERT OR REPLACE INTO property_data_cache ...` (`property_id` is the
primary key). -/
def replaceProp (tbl : List (PropRow B)) (pid : String) (row : PropRow B) :
    List (PropRow B) :=
  eraseProp tbl pid ++ [row]

/-! ### Statistics recorder -/

/-- The body of `_update_stats` on the `cache_stats` table: select today's
row; if present apply the (up to two) `UPDATE`s, otherwise `INSERT` a fresh
row carrying the initial counter values. -/
def updateStatsTable (stats : List StatRow) (today : Int) (api_call cache_hit : Bool)
    (tokens_saved : Int) : List StatRow :=
  let cost_saved : ℚ := tokens_saved * costPerToken
  match stats.find? (fun r => r.date == today) with
  | some _ =>
    let s1 := if api_call then
        stats.map (fun r => if r.date == today then { r with api_calls := r.api_calls + 1 } else r)
      else stats
    if cache_hit then
      s1.map (fun r => if r.date == today then
        { r with cache_hits := r.cache_hits + 1,
                 tokens_saved := r.tokens_saved + tokens_saved,
                 cost_saved := r.cost_saved + cost_saved } else r)
    else s1
  | none =>
    stats ++ [⟨today, if api_call then 1 else 0, if cache_hit then 1 else 0,
               tokens_saved, cost_saved⟩]

/-- `_update_stats(api_call, cache_hit, tokens_saved)` on the cache state
(its own storage errors are caught internally and leave the table as-is;
the fault-free path is modelled). -/
def _update_stats (s : CacheState V B) (now : Int) (api_call cache_hit : Bool)
    (tokens_saved : Int) : CacheState V B :=
  { s with stats := updateStatsTable s.stats (dateOf now) api_call cache_hit tokens_saved }

theorem _update_stats_memory (s : CacheState V B) (now : Int) (a c : Bool) (ts : Int) :
    (_update_stats s now a c ts).memory_cache = s.memory_cache := rfl

theorem _update_stats_memory_ttl (s : CacheState V B) (now : Int) (a c : Bool) (ts : Int) :
    (_update_stats s now a c ts).memory_cache_ttl = s.memory_cache_ttl := rfl

theorem _update_stats_gpt (s : CacheState V B) (now : Int) (a c : Bool) (ts : Int) :
    (_update_stats s now a c ts).gpt = s.gpt := rfl

theorem _update_stats_prop (s : CacheState V B) (now : Int) (a c : Bool) (ts : Int) :
    (_update_stats s now a c ts).prop = s.prop := rfl

theorem _update_stats_ttl_days (s : CacheState V B) (now : Int) (a c : Bool) (ts : Int) :
    (_update_stats s now a c ts).ttl_days = s.ttl_days := rfl

/-! ### Public operations -/

/-- The `try` block of `get_gpt_analysis` (lines 124-162): the durable-store
lookup by `(content_hash, model)`, expiry check, lazy delete, promotion into
the memory tier, and statistics update.  `fault = true` makes the block raise
at `sqlite3.connect`, which the `except` turns into `None`. -/
def dbLookup (e : Env V B) (s : CacheState V B) (now : Int) (content_hash model : String)
    (fault : Bool) : Except Unit (Option V × CacheState V B) :=
  if fault then .ok (none, s)
  else
    match findAnalysis s.gpt content_hash model with
    | some row =>
      if now < row.expires_at then
        match e.loads row.response_data with
        | some v =>
          let s1 := { s with
            memory_cache := dput content_hash v s.memory_cache,
            memory_cache_ttl := dput content_hash row.expires_at s.memory_cache_ttl }
          .ok (some v, _update_stats s1 now false true row.token_count)
        | none => .ok (none, s)
      else
        .ok (none, { s with gpt := eraseAnalysis s.gpt content_hash })
    | none => .ok (none, s)

/-- `get_gpt_analysis(content, model)` (lines 100-162).  The memory tier is
probed first; a live memory hit records a cache-hit event (with the default
`tokens_saved = 0` — line 117 passes no token count) and returns without
touching the durable store (so it succeeds even under a storage `fault`).
A dead memory entry is deleted from both dictionaries by unguarded `del`
statements placed before the `try` block; `del self.memory_cache_ttl[h]` on a
missing key raises `KeyError`, modelled as `Except.error ()`. -/
def get_gpt_analysis (e : Env V B) (s : CacheState V B) (now : Int) (content model : String)
    (fault : Bool) : Except Unit (Option V × CacheState V B) :=
  let content_hash := e.md5hex (content ++ model)
  match dget content_hash s.memory_cache with
  | some v =>
    if now < (dget content_hash s.memory_cache_ttl).getD now then
      .ok (some v, _update_stats s now false true 0)
    else
      match dget content_hash s.memory_cache_ttl with
      | some _ =>
        dbLookup e
          { s with memory_cache := derase content_hash s.memory_cache,
                   memory_cache_ttl := derase content_hash s.memory_cache_ttl }
          now content_hash model fault
      | none => .error ()
  | none => dbLookup e s now content_hash model fault

/-- `cache_gpt_analysis(content, model, analysis_result, token_count, ttl_days)`
(lines 164-208): insert-or-replace into the durable table, mirror into the
memory tier, record an `api_call` event; serialization or storage failure is
caught and reported as `false`. -/
def cache_gpt_analysis (e : Env V B) (s : CacheState V B) (now : Int) (content model : String)
    (analysis_result : V) (token_count : Int) (ttl_days : Option Int) (fault : Bool) :
    Bool × CacheState V B :=
  let content_hash := e.md5hex (content ++ model)
  let ttl := pyOr ttl_days s.ttl_days
  let expires_at := now + ttl * dayLen
  if fault then (false, s)
  else
    match e.dumps analysis_result with
    | none => (false, s)
    | some response_data =>
      let row : AnalysisRow B :=
        ⟨content_hash, content.take 200, response_data, now, expires_at, model, token_count⟩
      let s1 := { s with
        gpt := replaceAnalysis s.gpt content_hash row,
        memory_cache := dput content_hash analysis_result s.memory_cache,
        memory_cache_ttl := dput content_hash expires_at s.memory_cache_ttl }
      (true, _update_stats s1 now true false 0)

/-- `get_property_data(property_id)` (lines 210-255): durable lookup, expiry
check with lazy delete, `last_accessed` refresh (committed before
deserialization, so it survives a `pickle.loads` failure). -/
def get_property_data (e : Env V B) (s : CacheState V B) (now : Int) (property_id : String)
    (fault : Bool) : Option V × CacheState V B :=
  if fault then (none, s)
  else
    match findProp s.prop property_id with
    | some row =>
      if now < row.expires_at then
        let s1 := { s with prop := s.prop.map (fun r =>
          if r.property_id == property_id then { r with last_accessed := now } else r) }
        match e.loads row.data with
        | some v => (some v, s1)
        | none => (none, s1)
      else
        (none, { s with prop := eraseProp s.prop property_id })
    | none => (none, s)

/-- `cache_property_data(property_id, data, source_url, ttl_days)`
(lines 257-292). -/
def cache_property_data (e : Env V B) (s : CacheState V B) (now : Int) (property_id : String)
    (data : V) (source_url : String) (ttl_days : Option Int) (fault : Bool) :
    Bool × CacheState V B :=
  let ttl := pyOr ttl_days s.ttl_days
  let expires_at := now + ttl * dayLen
  if fault then (false, s)
  else
    match e.dumps data with
    | none => (false, s)
    | some blob =>
      let row : PropRow B := ⟨property_id, blob, source_url, now, expires_at, now⟩
      (true, { s with prop := replaceProp s.prop property_id row })

/-- The per-item loop of `bulk_cache_properties` (lines 317-329): each item is
serialized and upserted; a failing item is caught, logged and skipped without
incrementing `success_count`. -/
def bulkInsert (e : Env V B) (now expires_at : Int) (source_url : String) :
    List (String × V) → List (PropRow B) → Int → Int × List (PropRow B)
  | [], tbl, cnt => (cnt, tbl)
  | (pid, v) :: rest, tbl, cnt =>
    match e.dumps v with
    | some blob =>
      bulkInsert e now expires_at source_url rest
        (replaceProp tbl pid ⟨pid, blob, source_url, now, expires_at, now⟩) (cnt + 1)
    | none => bulkInsert e now expires_at source_url rest tbl cnt

/-- `bulk_cache_properties(properties, source_url)` (lines 294-337): one
explicit `BEGIN`/`COMMIT` transaction around all per-item inserts; returns
`(success_count, total_count)`.  The whole-batch `except` (storage fault)
also returns the counts rather than raising. -/
def bulk_cache_properties (e : Env V B) (s : CacheState V B) (now : Int)
    (properties : List (String × V)) (source_url : String) (fault : Bool) :
    (Int × Int) × CacheState V B :=
  let total : Int := properties.length
  if fault then ((0, total), s)
  else
    let r := bulkInsert e now (now + s.ttl_days * dayLen) source_url properties s.prop 0
    ((r.1, total), { s with prop := r.2 })

/-- `clean_expired_cache()` (lines 339-373): delete every row of both caches
with `expires_at < now`; return the number of rows removed. -/
def clean_expired_cache (s : CacheState V B) (now : Int) (fault : Bool) :
    Int × CacheState V B :=
  if fault then (0, s)
  else
    (((s.gpt.filter (fun r => decide (r.expires_at < now))).length : Int) +
       ((s.prop.filter (fun r => decide (r.expires_at < now))).length : Int),
     { s with gpt := s.gpt.filter (fun r => !decide (r.expires_at < now)),
              prop := s.prop.filter (fun r => !decide (r.expires_at < now)) })

/-- `clear_memory_cache()` (lines 375-380). -/
def clear_memory_cache (s : CacheState V B) : CacheState V B :=
  { s with memory_cache := [], memory_cache_ttl := [] }

/-- The aggregate dictionary returned by `get_stats`. -/
structure StatsAgg where
  period_days : Int
  api_calls : Int
  cache_hits : Int
  total_requests : Int
  hit_rate : ℚ
  tokens_saved : Int
  cost_saved : ℚ
deriving DecidableEq

/-- `get_stats(days)` (lines 422-474): sum the four counters over rows with
`date >= (now - days).date`, derive `total_requests` and `hit_rate`; a
storage fault yields the error dictionary, modelled as `none`. -/
def get_stats (s : CacheState V B) (now : Int) (days : Int) (fault : Bool) :
    Option StatsAgg :=
  if fault then none
  else
    let start_date := dateOf (now - days * dayLen)
    let rows := s.stats.filter (fun r => decide (start_date ≤ r.date))
    let api := (rows.map (·.api_calls)).sum
    let hits := (rows.map (·.cache_hits)).sum
    let total := api + hits
    some ⟨days, api, hits, total,
          if total > 0 then (hits : ℚ) / (total : ℚ) else 0,
          (rows.map (·.tokens_saved)).sum, (rows.map (·.cost_saved)).sum⟩

/-! ### The Facade without the Volatile Store

The spec (section 4.3) calls the in-memory tier "purely an optimization:
its absence must never change the correctness of the overall cache".  The
following two definitions are the comparison point for that refinement
claim: the same analysis-cache read/write paths with every touch of
`memory_cache` / `memory_cache_ttl` removed (the durable-store code is
unchanged). -/

/-- `get_gpt_analysis` with the Volatile Store absent: the durable lookup
only (a durable hit records a cache-hit event with the row's token count,
exactly as the source's fall-through path does). -/
def get_gpt_analysis_nomem (e : Env V B) (s : CacheState V B) (now : Int)
    (content model : String) (fault : Bool) : Option V × CacheState V B :=
  let content_hash := e.md5hex (content ++ model)
  if fault then (none, s)
  else
    match findAnalysis s.gpt content_hash model with
    | some row =>
      if now < row.expires_at then
        match e.loads row.response_data with
        | some v => (some v, _update_stats s now false true row.token_count)
        | none => (none, s)
      else
        (none, { s with gpt := eraseAnalysis s.gpt content_hash })
    | none => (none, s)

/-- `cache_gpt_analysis` with the Volatile Store absent: the durable upsert
and the `api_call` event only. -/
def cache_gpt_analysis_nomem (e : Env V B) (s : CacheState V B) (now : Int)
    (content model : String) (analysis_result : V) (token_count : Int)
    (ttl_days : Option Int) (fault : Bool) : Bool × CacheState V B :=
  let content_hash := e.md5hex (content ++ model)
  let ttl := pyOr ttl_days s.ttl_days
  let expires_at := now + ttl * dayLen
  if fault then (false, s)
  else
    match e.dumps analysis_result with
    | none => (false, s)
    | some response_data =>
      let row : AnalysisRow B :=
        ⟨content_hash, content.take 200, response_data, now, expires_at, model, token_count⟩
      (true, _update_stats { s with gpt := replaceAnalysis s.gpt content_hash row }
        now true false 0)

/-! ### Operation sequences -/

/-- One public cache operation (the statistics reader `get_stats` is kept
separate; it observes but does not modify the state). -/
inductive Op (V : Type) where
  | putA (content model : String) (v : V) (token_count : Int) (ttl : Option Int)
  | getA (content model : String)
  | putP (pid : String) (v : V) (url : String) (ttl : Option Int)
  | getP (pid : String)
  | bulkP (props : List (String × V)) (url : String)
  | sweep
  | clearMem
deriving DecidableEq

/-- The value an operation returns to its caller. -/
inductive Out (V : Type) where
  | val : Option V → Out V
  | flag : Bool → Out V
  | cnt : Int × Int → Out V
  | num : Int → Out V
  | unit : Out V
deriving DecidableEq

/-- Run one fault-free operation on the two-tier facade. -/
def stepMem (e : Env V B) (s : CacheState V B) (t : Int) :
    Op V → Except Unit (Out V × CacheState V B)
  | .putA c m v tok ttl =>
    let r := cache_gpt_analysis e s t c m v tok ttl false; .ok (.flag r.1, r.2)
  | .getA c m => (get_gpt_analysis e s t c m false).map (fun r => (.val r.1, r.2))
  | .putP pid v url ttl =>
    let r := cache_property_data e s t pid v url ttl false; .ok (.flag r.1, r.2)
  | .getP pid => let r := get_property_data e s t pid false; .ok (.val r.1, r.2)
  | .bulkP props url =>
    let r := bulk_cache_properties e s t props url false; .ok (.cnt r.1, r.2)
  | .sweep => let r := clean_expired_cache s t false; .ok (.num r.1, r.2)
  | .clearMem => .ok (.unit, clear_memory_cache s)

/-- Run one fault-free operation on the facade without the volatile tier. -/
def stepNoMem (e : Env V B) (s : CacheState V B) (t : Int) :
    Op V → Out V × CacheState V B
  | .putA c m v tok ttl =>
    let r := cache_gpt_analysis_nomem e s t c m v tok ttl false; (.flag r.1, r.2)
  | .getA c m => let r := get_gpt_analysis_nomem e s t c m false; (.val r.1, r.2)
  | .putP pid v url ttl =>
    let r := cache_property_data e s t pid v url ttl false; (.flag r.1, r.2)
  | .getP pid => let r := get_property_data e s t pid false; (.val r.1, r.2)
  | .bulkP props url =>
    let r := bulk_cache_properties e s t props url false; (.cnt r.1, r.2)
  | .sweep => let r := clean_expired_cache s t false; (.num r.1, r.2)
  | .clearMem => (.unit, clear_memory_cache s)

/-- Run a timestamped operation sequence on the two-tier facade, collecting
the returned values; an escaping `KeyError` aborts the run. -/
def runMem (e : Env V B) : List (Int × Op V) → CacheState V B →
    Except Unit (List (Out V) × CacheState V B)
  | [], s => .ok ([], s)
  | (t, op) :: rest, s => do
    let r ← stepMem e s t op
    let r2 ← runMem e rest r.2
    .ok (r.1 :: r2.1, r2.2)

/-- Run a timestamped operation sequence on the memory-less facade. -/
def runNoMem (e : Env V B) : List (Int × Op V) → CacheState V B →
    List (Out V) × CacheState V B
  | [], s => ([], s)
  | (t, op) :: rest, s =>
    let r := stepNoMem e s t op
    let r2 := runNoMem e rest r.2
    (r.1 :: r2.1, r2.2)

/-- The `(content, model)` pairs an operation feeds to the fingerprint
function. -/
def opPairs : Op V → List (String × String)
  | .putA c m _ _ _ => [(c, m)]
  | .getA c m => [(c, m)]
  | _ => []

/-- All `(content, model)` pairs used by a trace. -/
def tracePairs (tr : List (Int × Op V)) : List (String × String) :=
  (tr.map (fun x => opPairs x.2)).flatten

/-- No two distinct `(content, model)` pairs of `P` collide on the
fingerprint of their separator-less concatenation. -/
def NoCollision (e : Env V B) (P : List (String × String)) : Prop :=
  ∀ p₁ ∈ P, ∀ p₂ ∈ P, e.md5hex (p₁.1 ++ p₁.2) = e.md5hex (p₂.1 ++ p₂.2) → p₁ = p₂

/-- The two in-memory dictionaries hold exactly the same keys. -/
def sameKeys (s : CacheState V B) : Prop :=
  ∀ h, (dget h s.memory_cache).isSome ↔ (dget h s.memory_cache_ttl).isSome

/-- A concrete instantiation of the ambient functions, for evaluating the
model on closed inputs: values and blobs are naturals, serialization is the
identity, and the digest of a string is the string itself. -/
def natEnv : Env Nat Nat where
  md5hex := fun str => str
  dumps := some
  loads := some
  load_dump := by intro v b hvb; cases hvb; rfl

/-! ### Table lemmas -/

/-- At most one row per `content_hash` (the primary-key invariant of
`gpt_analysis_cache`). -/
def HashNodup (tbl : List (AnalysisRow B)) : Prop :=
  tbl.Pairwise (fun r r' => r.content_hash ≠ r'.content_hash)

theorem findAnalysis_eq_some {tbl : List (AnalysisRow B)} {h m : String}
    {row : AnalysisRow B} (hf : findAnalysis tbl h m = some row) :
    row ∈ tbl ∧ row.content_hash = h ∧ row.model = m := by
  refine ⟨List.mem_of_find?_eq_some hf, ?_⟩
  have := List.find?_some hf
  simpa using this

theorem findAnalysis_of_mem {tbl : List (AnalysisRow B)} (hn : HashNodup tbl)
    {row : AnalysisRow B} (hmem : row ∈ tbl) (hh : row.content_hash = h)
    (hm : row.model = m) : findAnalysis tbl h m = some row := by
  induction tbl with
  | nil => simp at hmem
  | cons r0 t ih =>
    rcases List.mem_cons.mp hmem with rfl | htail
    · simp [findAnalysis, List.find?_cons, hh, hm]
    · have hne : r0.content_hash ≠ row.content_hash :=
        (List.pairwise_cons.mp hn).1 row htail
      have : ¬(r0.content_hash == h && r0.model == m) = true := by
        simp only [Bool.and_eq_true, beq_iff_eq]
        rintro ⟨h1, _⟩
        exact hne (by rw [h1, hh])
      have hrec := ih (List.pairwise_cons.mp hn).2 htail
      simpa [findAnalysis, List.find?_cons, this] using hrec

theorem findAnalysis_erase (tbl : List (AnalysisRow B)) (hdel h m : String) :
    findAnalysis (eraseAnalysis tbl hdel) h m =
      if hdel = h then none else findAnalysis tbl h m := by
  induction tbl with
  | nil => simp [findAnalysis, eraseAnalysis]
  | cons r0 t ih =>
    by_cases h0 : r0.content_hash = hdel
    · have : eraseAnalysis (r0 :: t) hdel = eraseAnalysis t hdel := by
        simp [eraseAnalysis, List.filter_cons, h0]
      rw [this, ih]
      by_cases hd : hdel = h
      · simp [hd]
      · have : ¬(r0.content_hash == h && r0.model == m) = true := by
          simp only [Bool.and_eq_true, beq_iff_eq]
          rintro ⟨h1, _⟩
          exact hd (h0 ▸ h1 : hdel = h)
        simp [hd, findAnalysis, List.find?_cons, this]
    · have : eraseAnalysis (r0 :: t) hdel = r0 :: eraseAnalysis t hdel := by
        simp [eraseAnalysis, List.filter_cons, h0]
      rw [this]
      by_cases hmatch : (r0.content_hash == h && r0.model == m) = true
      · have hd : ¬hdel = h := by
          simp only [Bool.and_eq_true, beq_iff_eq] at hmatch
          rintro rfl
          exact h0 hmatch.1
        simp [findAnalysis, List.find?_cons, hmatch, hd]
      · simp only [findAnalysis, List.find?_cons, hmatch] at *
        simpa [findAnalysis] using ih

theorem findAnalysis_replace (tbl : List (AnalysisRow B)) (hrep h m : String)
    (row : AnalysisRow B) (hh : row.content_hash = hrep) :
    findAnalysis (replaceAnalysis tbl hrep row) h m =
      if hrep = h then (if row.model = m then some row else none)
      else findAnalysis tbl h m := by
  rw [replaceAnalysis]
  rw [findAnalysis, List.find?_append]
  rw [show List.find? (fun r => r.content_hash == h && r.model == m)
        (eraseAnalysis tbl hrep) = findAnalysis (eraseAnalysis tbl hrep) h m from rfl]
  rw [findAnalysis_erase]
  by_cases hd : hrep = h
  · subst hd
    by_cases hm : row.model = m <;>
      simp [List.find?_cons, hh, hm, findAnalysis]
  · cases hfind : findAnalysis tbl h m with
    | some r => simp [hd, hfind]
    | none =>
      have : ¬(row.content_hash == h && row.model == m) = true := by
        simp only [Bool.and_eq_true, beq_iff_eq]
        rintro ⟨h1, _⟩
        exact hd (hh ▸ h1)
      simp [hd, hfind, List.find?_cons, this]

theorem findProp_eq_some {tbl : List (PropRow B)} {pid : String} {row : PropRow B}
    (hf : findProp tbl pid = some row) : row ∈ tbl ∧ row.property_id = pid := by
  refine ⟨List.mem_of_find?_eq_some hf, ?_⟩
  have := List.find?_some hf
  simpa using this

theorem findProp_erase (tbl : List (PropRow B)) (pdel pid : String) :
    findProp (eraseProp tbl pdel) pid =
      if pdel = pid then none else findProp tbl pid := by
  induction tbl with
  | nil => simp [findProp, eraseProp]
  | cons r0 t ih =>
    by_cases h0 : r0.property_id = pdel
    · have : eraseProp (r0 :: t) pdel = eraseProp t pdel := by
        simp [eraseProp, List.filter_cons, h0]
      rw [this, ih]
      by_cases hd : pdel = pid
      · simp [hd]
      · have : ¬(r0.property_id == pid) = true := by
          simp only [beq_iff_eq]
          intro h1
          exact hd (h0 ▸ h1 : pdel = pid)
        simp [hd, findProp, List.find?_cons, this]
    · have : eraseProp (r0 :: t) pdel = r0 :: eraseProp t pdel := by
        simp [eraseProp, List.filter_cons, h0]
      rw [this]
      by_cases hmatch : (r0.property_id == pid) = true
      · have hd : ¬pdel = pid := by
          simp only [beq_iff_eq] at hmatch
          rintro rfl
          exact h0 hmatch
        simp [findProp, List.find?_cons, hmatch, hd]
      · simp only [findProp, List.find?_cons, hmatch] at *
        simpa [findProp] using ih

theorem findProp_replace (tbl : List (PropRow B)) (prep pid : String)
    (row : PropRow B) (hh : row.property_id = prep) :
    findProp (replaceProp tbl prep row) pid =
      if prep = pid then some row else findProp tbl pid := by
  rw [replaceProp, findProp, List.find?_append]
  rw [show List.find? (fun r => r.property_id == pid) (eraseProp tbl prep)
        = findProp (eraseProp tbl prep) pid from rfl]
  rw [findProp_erase]
  by_cases hd : prep = pid
  · subst hd
    simp [List.find?_cons, hh]
  · cases hfind : findProp tbl pid with
    | some r => simp [hd, hfind]
    | none =>
      have : ¬(row.property_id == pid) = true := by
        simp only [beq_iff_eq]
        intro h1
        exact hd (hh ▸ h1)
      simp [hd, hfind, List.find?_cons, this]

theorem findAnalysis_replace_self (tbl : List (AnalysisRow B)) (h m : String)
    (row : AnalysisRow B) (hh : row.content_hash = h) (hm : row.model = m) :
    findAnalysis (replaceAnalysis tbl h row) h m = some row := by
  rw [findAnalysis_replace tbl h h m row hh]
  simp [hm]

theorem findProp_replace_self (tbl : List (PropRow B)) (pid : String)
    (row : PropRow B) (hh : row.property_id = pid) :
    findProp (replaceProp tbl pid row) pid = some row := by
  rw [findProp_replace tbl pid pid row hh]
  simp

/-! ### Shared facts about put-then-get -/

/-- After a successful `cache_gpt_analysis(c, m, ...)` with a positive
effective TTL, any `get_gpt_analysis(c', m')` at the same instant whose
fingerprint input `c' ++ m'` coincides with `c ++ m` is served from the
memory tier (hence even under a storage fault) and returns the stored
value. -/
theorem put_then_get_hit (e : Env V B) (s : CacheState V B) (t : Int) (c m c' m' : String)
    (v : V) (tok : Int) (ttlo : Option Int) (fault' : Bool) (b : B)
    (hb : e.dumps v = some b) (httl : 0 < pyOr ttlo s.ttl_days)
    (hcc : c' ++ m' = c ++ m) :
    (cache_gpt_analysis e s t c m v tok ttlo false).1 = true ∧
    ∃ s', get_gpt_analysis e (cache_gpt_analysis e s t c m v tok ttlo false).2 t c' m' fault'
        = .ok (some v, s') := by
  have hexp : t < t + pyOr ttlo s.ttl_days * dayLen := by
    have : 0 < pyOr ttlo s.ttl_days * dayLen := by
      apply mul_pos httl
      show (0 : Int) < 86400
      norm_num
    omega
  constructor
  · simp [cache_gpt_analysis, hb]
  · refine ⟨_update_stats (cache_gpt_analysis e s t c m v tok ttlo false).2 t false true 0, ?_⟩
    have hmc : dget (e.md5hex (c ++ m))
        (cache_gpt_analysis e s t c m v tok ttlo false).2.memory_cache = some v := by
      simp only [cache_gpt_analysis, hb, if_false, Bool.false_eq_true]
      exact dget_dput_self _ _ _
    have hmct : dget (e.md5hex (c ++ m))
        (cache_gpt_analysis e s t c m v tok ttlo false).2.memory_cache_ttl
          = some (t + pyOr ttlo s.ttl_days * dayLen) := by
      simp only [cache_gpt_analysis, hb, if_false, Bool.false_eq_true]
      exact dget_dput_self _ _ _
    simp only [get_gpt_analysis, hcc, hmc, hmct, Option.getD_some, if_pos hexp]

/-! ### Claims -/

/-- C2: for every content `c`, model `m`, value `result` and token count
`n`, a successful `cache_gpt_analysis(c, m, result, n)` followed
immediately by `get_gpt_analysis(c, m)` returns a value equal to `result`
(here "successful" is witnessed by the payload being serializable, and the
effective TTL of the put is positive, as with any positive default
`ttl_days` such as the constructor's `7`). -/
theorem c2_roundtrip (e : Env V B) (s : CacheState V B) (t : Int) (c m : String)
    (v : V) (tok : Int) (ttlo : Option Int) (fault' : Bool) (b : B)
    (hb : e.dumps v = some b) (httl : 0 < pyOr ttlo s.ttl_days) :
    (cache_gpt_analysis e s t c m v tok ttlo false).1 = true ∧
    ∃ s', get_gpt_analysis e (cache_gpt_analysis e s t c m v tok ttlo false).2 t c m fault'
        = .ok (some v, s') :=
  put_then_get_hit e s t c m c m v tok ttlo fault' b hb httl rfl

/-- Witness for C2 at concrete inputs. -/
theorem c2_roundtrip_witness :
    (cache_gpt_analysis natEnv (initState Nat Nat 7) 0 "a" "b" 5 100 none false).1 = true ∧
    ∃ s', get_gpt_analysis natEnv
        (cache_gpt_analysis natEnv (initState Nat Nat 7) 0 "a" "b" 5 100 none false).2
        0 "a" "b" false = .ok (some 5, s') :=
  c2_roundtrip natEnv (initState Nat Nat 7) 0 "a" "b" 5 100 none false 5 rfl (by decide)

/-- C8: the analysis-cache key is the digest of the plain concatenation
`content + model` with no separator, so the distinct pairs
`("ab", "c") ≠ ("a", "bc")` share one fingerprint, and after
`cache_gpt_analysis("ab", "c", v, n)` a `get_gpt_analysis("a", "bc")` call
returns `v` from the memory cache (the `fault'` flag may disable the
durable store entirely, showing the value comes from the memory tier)
even though content and model both differ. -/
theorem c8_collision (e : Env V B) (s : CacheState V B) (t : Int) (v : V) (tok : Int)
    (fault' : Bool) (b : B) (hb : e.dumps v = some b) (httl : 0 < s.ttl_days) :
    (("ab", "c") : String × String) ≠ ("a", "bc") ∧
    e.md5hex ("ab" ++ "c") = e.md5hex ("a" ++ "bc") ∧
    (cache_gpt_analysis e s t "ab" "c" v tok none false).1 = true ∧
    ∃ s', get_gpt_analysis e (cache_gpt_analysis e s t "ab" "c" v tok none false).2
        t "a" "bc" fault' = .ok (some v, s') := by
  have hcc : ("a" ++ "bc" : String) = "ab" ++ "c" := rfl
  have h := put_then_get_hit e s t "ab" "c" "a" "bc" v tok none fault' b hb
    (by simpa [pyOr] using httl) hcc
  exact ⟨by decide, by rw [hcc], h.1, h.2⟩

/-- Witness for C8 at concrete inputs. -/
theorem c8_collision_witness :
    (("ab", "c") : String × String) ≠ ("a", "bc") ∧
    natEnv.md5hex ("ab" ++ "c") = natEnv.md5hex ("a" ++ "bc") ∧
    (cache_gpt_analysis natEnv (initState Nat Nat 7) 0 "ab" "c" 5 100 none false).1 = true ∧
    ∃ s', get_gpt_analysis natEnv
        (cache_gpt_analysis natEnv (initState Nat Nat 7) 0 "ab" "c" 5 100 none false).2
        0 "a" "bc" true = .ok (some 5, s') :=
  c8_collision natEnv (initState Nat Nat 7) 0 5 100 true 5 rfl (by decide)

/-- C9: a per-call `ttl_days` override of `0` is ignored — `ttl_days or
self.ttl_days` treats `0` as absent — so both `cache_gpt_analysis` and
`cache_property_data` behave exactly as with no override, and the stored
entry expires the default number of days after `now` rather than
immediately. -/
theorem c9_ttl_zero (e : Env V B) (s : CacheState V B) (t tok : Int) (c m pid url : String)
    (v w : V) (fault : Bool) (b b' : B) (hb : e.dumps v = some b)
    (hb' : e.dumps w = some b') :
    pyOr (some 0) s.ttl_days = s.ttl_days ∧
    cache_gpt_analysis e s t c m v tok (some 0) fault
      = cache_gpt_analysis e s t c m v tok none fault ∧
    cache_property_data e s t pid w url (some 0) fault
      = cache_property_data e s t pid w url none fault ∧
    (∃ row, findAnalysis (cache_gpt_analysis e s t c m v tok (some 0) false).2.gpt
        (e.md5hex (c ++ m)) m = some row ∧
      row.expires_at = t + s.ttl_days * dayLen) ∧
    (∃ row, findProp (cache_property_data e s t pid w url (some 0) false).2.prop pid
        = some row ∧ row.expires_at = t + s.ttl_days * dayLen) := by
  refine ⟨rfl, rfl, rfl, ?_, ?_⟩
  · refine ⟨⟨e.md5hex (c ++ m), c.take 200, b, t,
        t + pyOr (some 0) s.ttl_days * dayLen, m, tok⟩, ?_, ?_⟩
    · simp only [cache_gpt_analysis, hb, if_false, Bool.false_eq_true]
      exact findAnalysis_replace_self _ _ _ _ rfl rfl
    · simp [pyOr]
  · refine ⟨⟨pid, b', url, t, t + pyOr (some 0) s.ttl_days * dayLen, t⟩, ?_, ?_⟩
    · simp only [cache_property_data, hb', if_false, Bool.false_eq_true]
      exact findProp_replace_self _ _ _ rfl
    · simp [pyOr]

/-- Witness for C9 at concrete inputs. -/
theorem c9_ttl_zero_witness :
    pyOr (some 0) (initState Nat Nat 7).ttl_days = (initState Nat Nat 7).ttl_days ∧
    cache_gpt_analysis natEnv (initState Nat Nat 7) 0 "a" "b" 5 100 (some 0) false
      = cache_gpt_analysis natEnv (initState Nat Nat 7) 0 "a" "b" 5 100 none false ∧
    cache_property_data natEnv (initState Nat Nat 7) 0 "p" 6 "u" (some 0) false
      = cache_property_data natEnv (initState Nat Nat 7) 0 "p" 6 "u" none false ∧
    (∃ row, findAnalysis
        (cache_gpt_analysis natEnv (initState Nat Nat 7) 0 "a" "b" 5 100 (some 0) false).2.gpt
        (natEnv.md5hex ("a" ++ "b")) "b" = some row ∧
      row.expires_at = 0 + (initState Nat Nat 7).ttl_days * dayLen) ∧
    (∃ row, findProp
        (cache_property_data natEnv (initState Nat Nat 7) 0 "p" 6 "u" (some 0) false).2.prop
        "p" = some row ∧ row.expires_at = 0 + (initState Nat Nat 7).ttl_days * dayLen) :=
  c9_ttl_zero natEnv (initState Nat Nat 7) 0 100 "a" "b" "p" "u" 5 6 false 5 6 rfl rfl

theorem mem_eraseAnalysis {tbl : List (AnalysisRow B)} {h : String} {r : AnalysisRow B}
    (hr : r ∈ eraseAnalysis tbl h) : r.content_hash ≠ h := by
  have := (List.mem_filter.mp hr).2
  simpa using this

theorem mem_eraseProp {tbl : List (PropRow B)} {pid : String} {r : PropRow B}
    (hr : r ∈ eraseProp tbl pid) : r.property_id ≠ pid := by
  have := (List.mem_filter.mp hr).2
  simpa using this

/-- C3: a lookup that encounters an entry whose `expires_at` is in the past
reports absent and deletes the row from the durable table as a side effect
(stated for both the analysis cache and the entity cache; for the analysis
cache the memory-tier entry for that fingerprint, when present, carries the
same already-expired deadline — the invariant of reachable states — so the
lookup falls through to the durable store). -/
theorem c3_expiry (e : Env V B) (s : CacheState V B) (t : Int) (c m pid : String)
    (rowA : AnalysisRow B) (rowP : PropRow B)
    (hA : findAnalysis s.gpt (e.md5hex (c ++ m)) m = some rowA)
    (hAe : rowA.expires_at ≤ t)
    (hmem : ∀ ttl, dget (e.md5hex (c ++ m)) s.memory_cache_ttl = some ttl → ttl ≤ t)
    (hmem2 : (dget (e.md5hex (c ++ m)) s.memory_cache).isSome →
      (dget (e.md5hex (c ++ m)) s.memory_cache_ttl).isSome)
    (hP : findProp s.prop pid = some rowP) (hPe : rowP.expires_at ≤ t) :
    (∃ s', get_gpt_analysis e s t c m false = .ok (none, s') ∧
      ∀ r ∈ s'.gpt, r.content_hash ≠ e.md5hex (c ++ m)) ∧
    (∃ s', get_property_data e s t pid false = (none, s') ∧
      ∀ r ∈ s'.prop, r.property_id ≠ pid) := by
  constructor
  · have hdb : ∀ s₀ : CacheState V B, s₀.gpt = s.gpt →
        dbLookup e s₀ t (e.md5hex (c ++ m)) m false
          = .ok (none, { s₀ with gpt := eraseAnalysis s₀.gpt (e.md5hex (c ++ m)) }) := by
      intro s₀ hg
      rw [dbLookup, if_neg (by simp), hg, hA]
      simp only [if_neg (not_lt.mpr hAe)]
    cases hmc : dget (e.md5hex (c ++ m)) s.memory_cache with
    | none =>
      refine ⟨{ s with gpt := eraseAnalysis s.gpt (e.md5hex (c ++ m)) }, ?_, ?_⟩
      · rw [get_gpt_analysis, hmc]
        exact hdb s rfl
      · intro r hr
        exact mem_eraseAnalysis hr
    | some v =>
      obtain ⟨ttl, httl⟩ := Option.isSome_iff_exists.mp (hmem2 (by rw [hmc]; rfl))
      have hle := hmem ttl httl
      refine ⟨⟨eraseAnalysis s.gpt (e.md5hex (c ++ m)), s.prop, s.stats,
          derase (e.md5hex (c ++ m)) s.memory_cache,
          derase (e.md5hex (c ++ m)) s.memory_cache_ttl, s.ttl_days⟩, ?_, ?_⟩
      · rw [get_gpt_analysis, hmc, httl]
        simp only [Option.getD_some, if_neg (not_lt.mpr hle)]
        exact hdb _ rfl
      · intro r hr
        exact mem_eraseAnalysis hr
  · refine ⟨{ s with prop := eraseProp s.prop pid }, ?_, ?_⟩
    · rw [get_property_data, if_neg (by simp), hP]
      simp only [if_neg (not_lt.mpr hPe)]
    · intro r hr
      exact mem_eraseProp hr

/-- Witness for C3 at a concrete state holding one expired row in each
durable table. -/
theorem c3_expiry_witness :
    (∃ s', get_gpt_analysis natEnv
        (⟨[⟨"ab", "x", 9, -10, -1, "b", 3⟩], [⟨"p", 8, "u", -10, -1, -5⟩], [], [], [], 7⟩ :
          CacheState Nat Nat) 0 "a" "b" false = .ok (none, s') ∧
      ∀ r ∈ s'.gpt, r.content_hash ≠ natEnv.md5hex ("a" ++ "b")) ∧
    (∃ s', get_property_data natEnv
        (⟨[⟨"ab", "x", 9, -10, -1, "b", 3⟩], [⟨"p", 8, "u", -10, -1, -5⟩], [], [], [], 7⟩ :
          CacheState Nat Nat) 0 "p" false = (none, s') ∧
      ∀ r ∈ s'.prop, r.property_id ≠ "p") :=
  c3_expiry natEnv _ 0 "a" "b" "p" ⟨"ab", "x", 9, -10, -1, "b", 3⟩ ⟨"p", 8, "u", -10, -1, -5⟩
    (by decide) (by decide) (by intro ttl h; simp [dget] at h) (by simp [dget])
    (by decide) (by decide)

/-- Subtracting `days` whole days from a timestamp shifts its calendar date
by exactly `days` (the model's counterpart of
`(datetime.now() - timedelta(days=days)).strftime('%Y-%m-%d')`). -/
theorem dateOf_sub_days (now days : Int) :
    dateOf (now - days * dayLen) = dateOf now - days := by
  unfold dateOf dayLen
  rw [sub_eq_add_neg, ← neg_mul]
  rw [Int.add_mul_ediv_right _ _ (by norm_num : (86400 : ℤ) ≠ 0)]
  ring

/-- C1 (amended): from empty statistics, one `cache_gpt_analysis` call with
token count `n`, followed immediately by one cache-hit `get_gpt_analysis`
for the same content and model, yields `api_calls == 1`, `cache_hits == 1`
and `tokens_saved == 0` — not `n`: the immediate get is served by the
memory tier, whose hit path (line 117) records the event with the default
`tokens_saved=0` — and `get_stats(0)`, restricted to today, reports exactly
these numbers (`total_requests = 2`, `hit_rate = 1/2`) when no other
activity occurred today. -/
theorem c1_stats (e : Env V B) (d t tok : Int) (c m : String) (v : V) (b : B)
    (hb : e.dumps v = some b) (hd : 0 < d) :
    (cache_gpt_analysis e (initState V B d) t c m v tok none false).1 = true ∧
    ∃ s2, get_gpt_analysis e
        (cache_gpt_analysis e (initState V B d) t c m v tok none false).2
        t c m false = .ok (some v, s2) ∧
      s2.stats = [⟨dateOf t, 1, 1, 0, 0⟩] ∧
      get_stats s2 t 0 false = some ⟨0, 1, 1, 2, 1/2, 0, 0⟩ := by
  have hput : cache_gpt_analysis e (initState V B d) t c m v tok none false
      = (true, ⟨[⟨e.md5hex (c ++ m), c.take 200, b, t, t + d * dayLen, m, tok⟩], [],
          [⟨dateOf t, 1, 0, 0, 0⟩], [(e.md5hex (c ++ m), v)],
          [(e.md5hex (c ++ m), t + d * dayLen)], d⟩) := by
    simp only [cache_gpt_analysis, hb, if_false, Bool.false_eq_true, initState, pyOr,
      _update_stats, updateStatsTable, replaceAnalysis, eraseAnalysis, dput, derase,
      List.filter_nil, List.find?_nil, List.nil_append, costPerToken]
    norm_num
  have hlt : t < t + d * dayLen := by
    have : (0 : Int) < d * dayLen := by
      apply mul_pos hd
      show (0 : Int) < 86400
      norm_num
    omega
  refine ⟨by rw [hput], ?_⟩
  refine ⟨⟨[⟨e.md5hex (c ++ m), c.take 200, b, t, t + d * dayLen, m, tok⟩], [],
      [⟨dateOf t, 1, 1, 0, 0⟩], [(e.md5hex (c ++ m), v)],
      [(e.md5hex (c ++ m), t + d * dayLen)], d⟩, ?_, rfl, ?_⟩
  · rw [hput]
    rw [get_gpt_analysis]
    simp only [dget, if_pos rfl, Option.getD_some, if_pos hlt, _update_stats,
      updateStatsTable, List.find?_cons, beq_self_eq_true, List.map_cons, List.map_nil,
      if_true, costPerToken]
    norm_num
  · rw [get_stats]
    simp only [if_false, Bool.false_eq_true, zero_mul, sub_zero, List.filter_cons,
      List.filter_nil, le_refl, List.map_cons, List.map_nil, List.sum_cons,
      List.sum_nil]
    norm_num

/-- Witness for C1 (amended) at concrete inputs. -/
theorem c1_stats_witness :
    (cache_gpt_analysis natEnv (initState Nat Nat 7) 0 "a" "b" 9 5 none false).1 = true ∧
    ∃ s2, get_gpt_analysis natEnv
        (cache_gpt_analysis natEnv (initState Nat Nat 7) 0 "a" "b" 9 5 none false).2
        0 "a" "b" false = .ok (some 9, s2) ∧
      s2.stats = [⟨dateOf 0, 1, 1, 0, 0⟩] ∧
      get_stats s2 0 0 false = some ⟨0, 1, 1, 2, 1/2, 0, 0⟩ :=
  c1_stats natEnv 7 0 5 "a" "b" 9 9 rfl (by decide)

/-- C1 as stated is false on the code: with token count `n = 5`, the
put-then-get sequence reports `tokens_saved = 0` (the memory-tier hit path
records no token count), not `5`. -/
theorem c1_counterexample :
    ((get_gpt_analysis natEnv
        (cache_gpt_analysis natEnv (initState Nat Nat 7) 0 "a" "b" 9 5 none false).2
        0 "a" "b" false).map
      (fun r => (get_stats r.2 0 0 false).map (fun agg => agg.tokens_saved)))
      = .ok (some 0) ∧ (0 : Int) ≠ 5 :=
  ⟨rfl, by decide⟩

/-- C5: `get_stats(days)` sums the four counters over rows with
`date ≥ today - days` and derives `total_requests` and `hit_rate` (`0` when
`total_requests = 0`); `days = 0` restricts the aggregation to today's row
only (no stats row is ever future-dated); and the two-day example
`(10, 20)` + `(15, 25)` sums to `(25, 45)` with `total_requests = 70` and
`hit_rate = 45/70 ≈ 0.643`. -/
theorem c5_stats_aggregate (s : CacheState V B) (now days : Int)
    (hfut : ∀ r ∈ s.stats, r.date ≤ dateOf now) :
    (get_stats s now days false = some ⟨days,
      ((s.stats.filter fun r => decide (dateOf now - days ≤ r.date)).map (·.api_calls)).sum,
      ((s.stats.filter fun r => decide (dateOf now - days ≤ r.date)).map (·.cache_hits)).sum,
      ((s.stats.filter fun r => decide (dateOf now - days ≤ r.date)).map (·.api_calls)).sum
        + ((s.stats.filter fun r => decide (dateOf now - days ≤ r.date)).map (·.cache_hits)).sum,
      (if 0 < ((s.stats.filter fun r => decide (dateOf now - days ≤ r.date)).map (·.api_calls)).sum
            + ((s.stats.filter fun r => decide (dateOf now - days ≤ r.date)).map (·.cache_hits)).sum
       then ((((s.stats.filter fun r => decide (dateOf now - days ≤ r.date)).map (·.cache_hits)).sum : ℚ)
          / ((((s.stats.filter fun r => decide (dateOf now - days ≤ r.date)).map (·.api_calls)).sum
            + ((s.stats.filter fun r => decide (dateOf now - days ≤ r.date)).map (·.cache_hits)).sum : Int) : ℚ))
       else 0),
      ((s.stats.filter fun r => decide (dateOf now - days ≤ r.date)).map (·.tokens_saved)).sum,
      ((s.stats.filter fun r => decide (dateOf now - days ≤ r.date)).map (·.cost_saved)).sum⟩) ∧
    ((s.stats.filter fun r => decide (dateOf (now - 0 * dayLen) ≤ r.date))
      = s.stats.filter (fun r => r.date == dateOf now)) ∧
    (get_stats (⟨[], [], [⟨0, 10, 20, 5000, 1/20⟩, ⟨-1, 15, 25, 7500, 3/40⟩], [], [], 7⟩ :
        CacheState Nat Nat) 0 7 false
      = some ⟨7, 25, 45, 70, 45/70, 12500, 1/8⟩ ∧
     |(45 : ℚ)/70 - 643/1000| < 1/1000) := by
  have hconc : get_stats (⟨[], [], [⟨0, 10, 20, 5000, 1/20⟩, ⟨-1, 15, 25, 7500, 3/40⟩],
      [], [], 7⟩ : CacheState Nat Nat) 0 7 false
      = some ⟨7, 25, 45, 70, 45/70, 12500, 1/8⟩ := by
    rw [get_stats]
    rw [show ((0 : Int) - 7 * dayLen) = 0 - 7 * dayLen from rfl, dateOf_sub_days]
    simp only [if_false, Bool.false_eq_true, List.filter_cons, List.filter_nil,
      List.map_cons, List.map_nil, List.sum_cons, List.sum_nil]
    norm_num [dateOf, Int.zero_ediv]
  refine ⟨?_, ?_, hconc, by rw [abs_lt]; constructor <;> norm_num⟩
  · rw [get_stats]
    rw [dateOf_sub_days]
    simp [Function.comp_def]
  · apply List.filter_congr
    intro r hr
    have h1 := hfut r hr
    have h2 : dateOf (now - 0 * dayLen) = dateOf now := by norm_num
    rw [h2]
    have h3 : (dateOf now ≤ r.date) ↔ (r.date = dateOf now) := by omega
    simp only [h3]
    rw [Bool.eq_iff_iff]
    simp

/-- Witness for C5 at concrete inputs (the concrete-example conjunct of the
instantiated theorem). -/
theorem c5_stats_aggregate_witness :
    get_stats (⟨[], [], [⟨0, 10, 20, 5000, 1/20⟩, ⟨-1, 15, 25, 7500, 3/40⟩], [], [], 7⟩ :
        CacheState Nat Nat) 0 7 false
      = some ⟨7, 25, 45, 70, 45/70, 12500, 1/8⟩ ∧
    |(45 : ℚ)/70 - 643/1000| < 1/1000 :=
  (c5_stats_aggregate
    (⟨[], [], [⟨0, 10, 20, 5000, 1/20⟩, ⟨-1, 15, 25, 7500, 3/40⟩], [], [], 7⟩ :
      CacheState Nat Nat) 0 7 (by decide)).2.2

/-! ### Bulk-insert lemmas -/

theorem bulkInsert_count (e : Env V B) (now exp : Int) (url : String)
    (props : List (String × V)) (tbl : List (PropRow B)) (cnt : Int) :
    (bulkInsert e now exp url props tbl cnt).1
      = cnt + ((props.filter (fun p => (e.dumps p.2).isSome)).length : Int) := by
  induction props generalizing tbl cnt with
  | nil => simp [bulkInsert]
  | cons q rest ih =>
    obtain ⟨pid, v⟩ := q
    cases hq : e.dumps v with
    | some blob =>
      rw [show bulkInsert e now exp url ((pid, v) :: rest) tbl cnt
            = bulkInsert e now exp url rest
                (replaceProp tbl pid ⟨pid, blob, url, now, exp, now⟩) (cnt + 1) by
          simp [bulkInsert, hq]]
      rw [ih]
      simp [List.filter_cons, hq]
      ring
    | none =>
      rw [show bulkInsert e now exp url ((pid, v) :: rest) tbl cnt
            = bulkInsert e now exp url rest tbl cnt by simp [bulkInsert, hq]]
      rw [ih]
      simp [List.filter_cons, hq]

theorem bulkInsert_findProp_not_mem (e : Env V B) (now exp : Int) (url pid : String)
    (props : List (String × V)) (tbl : List (PropRow B)) (cnt : Int)
    (hpid : pid ∉ props.map Prod.fst) :
    findProp (bulkInsert e now exp url props tbl cnt).2 pid = findProp tbl pid := by
  induction props generalizing tbl cnt with
  | nil => rfl
  | cons q rest ih =>
    obtain ⟨q1, q2⟩ := q
    have hne : q1 ≠ pid := by
      intro hq
      exact hpid (by simp [hq])
    have htail : pid ∉ rest.map Prod.fst := by
      intro hq
      exact hpid (by simp [hq])
    cases hq : e.dumps q2 with
    | some blob =>
      rw [show bulkInsert e now exp url ((q1, q2) :: rest) tbl cnt
            = bulkInsert e now exp url rest
                (replaceProp tbl q1 ⟨q1, blob, url, now, exp, now⟩) (cnt + 1) by
          simp [bulkInsert, hq]]
      rw [ih _ _ htail]
      rw [findProp_replace tbl q1 pid ⟨q1, blob, url, now, exp, now⟩ rfl]
      simp [hne]
    | none =>
      rw [show bulkInsert e now exp url ((q1, q2) :: rest) tbl cnt
            = bulkInsert e now exp url rest tbl cnt by simp [bulkInsert, hq]]
      exact ih _ _ htail

theorem bulkInsert_findProp_mem (e : Env V B) (now exp : Int) (url : String)
    {props : List (String × V)} (tbl : List (PropRow B)) (cnt : Int)
    {pid : String} {v : V} {blob : B}
    (hnd : (props.map Prod.fst).Nodup) (hmem : (pid, v) ∈ props)
    (hblob : e.dumps v = some blob) :
    findProp (bulkInsert e now exp url props tbl cnt).2 pid
      = some ⟨pid, blob, url, now, exp, now⟩ := by
  induction props generalizing tbl cnt with
  | nil => cases hmem
  | cons q rest ih =>
    obtain ⟨q1, q2⟩ := q
    rcases List.mem_cons.mp hmem with heq | htail
    · injection heq with h1 h2
      subst h1
      subst h2
      rw [show bulkInsert e now exp url ((pid, v) :: rest) tbl cnt
            = bulkInsert e now exp url rest
                (replaceProp tbl pid ⟨pid, blob, url, now, exp, now⟩) (cnt + 1) by
          simp [bulkInsert, hblob]]
      have h0 : (pid :: rest.map Prod.fst).Nodup := by simpa using hnd
      rw [bulkInsert_findProp_not_mem _ _ _ _ _ _ _ _ (List.nodup_cons.mp h0).1]
      exact findProp_replace_self _ _ _ rfl
    · have h0 : (q1 :: rest.map Prod.fst).Nodup := by simpa using hnd
      have hnd' : (rest.map Prod.fst).Nodup := (List.nodup_cons.mp h0).2
      cases hq : e.dumps q2 with
      | some blob2 =>
        rw [show bulkInsert e now exp url ((q1, q2) :: rest) tbl cnt
              = bulkInsert e now exp url rest
                  (replaceProp tbl q1 ⟨q1, blob2, url, now, exp, now⟩) (cnt + 1) by
            simp [bulkInsert, hq]]
        exact ih _ _ hnd' htail
      | none =>
        rw [show bulkInsert e now exp url ((q1, q2) :: rest) tbl cnt
              = bulkInsert e now exp url rest tbl cnt by simp [bulkInsert, hq]]
        exact ih _ _ hnd' htail

/-- C6: `bulk_cache_properties(properties, source_url)` executes all per-item
upserts inside one transaction and returns `(successCount, totalCount)`:
an item whose payload fails to serialize is caught and excluded from the
success count without aborting the batch, every serializable item is still
committed and independently retrievable afterwards, and a 3-item mapping
with all-valid payloads yields `(3, 3)`. -/
theorem c6_bulk (e : Env V B) (s : CacheState V B) (t : Int)
    (props : List (String × V)) (url : String)
    (hnd : (props.map Prod.fst).Nodup) (httl : 0 < s.ttl_days) :
    (bulk_cache_properties e s t props url false).1
      = (((props.filter (fun p => (e.dumps p.2).isSome)).length : Int),
         (props.length : Int)) ∧
    (∀ pid v blob, (pid, v) ∈ props → e.dumps v = some blob →
      (get_property_data e (bulk_cache_properties e s t props url false).2 t pid false).1
        = some v) ∧
    (∀ props3 : List (String × V), props3.length = 3 →
      (∀ p ∈ props3, (e.dumps p.2).isSome) →
      (bulk_cache_properties e s t props3 url false).1 = (3, 3)) := by
  have hexp : t < t + s.ttl_days * dayLen := by
    have : (0 : Int) < s.ttl_days * dayLen := by
      apply mul_pos httl
      show (0 : Int) < 86400
      norm_num
    omega
  refine ⟨?_, ?_, ?_⟩
  · rw [bulk_cache_properties]
    simp only [if_false, Bool.false_eq_true]
    rw [bulkInsert_count]
    norm_num
  · intro pid v blob hmem hblob
    have hfind : findProp
        (bulkInsert e t (t + s.ttl_days * dayLen) url props s.prop 0).2 pid
        = some ⟨pid, blob, url, t, t + s.ttl_days * dayLen, t⟩ :=
      bulkInsert_findProp_mem e t (t + s.ttl_days * dayLen) url s.prop 0 hnd hmem hblob
    rw [bulk_cache_properties]
    simp only [if_false, Bool.false_eq_true]
    rw [get_property_data]
    simp only [if_false, Bool.false_eq_true]
    rw [hfind]
    simp only [if_pos hexp, e.load_dump v blob hblob]
  · intro props3 hlen hok
    rw [bulk_cache_properties]
    simp only [if_false, Bool.false_eq_true]
    rw [bulkInsert_count]
    rw [List.filter_eq_self.mpr hok, hlen]
    norm_num

/-- An ambient-function instantiation whose value type contains an
unserializable value (`none`), for exercising per-item serialization
failure on concrete inputs. -/
def optEnv : Env (Option Nat) Nat where
  md5hex := fun str => str
  dumps := fun v => v
  loads := fun b => some (some b)
  load_dump := by
    intro v b hvb
    simp only at hvb
    rw [hvb]

/-- Witness for C6: a batch with one unserializable payload returns
`(2, 3)` and keeps the two good items retrievable, and an all-valid 3-item
batch returns `(3, 3)`. -/
theorem c6_bulk_witness :
    (bulk_cache_properties optEnv (initState (Option Nat) Nat 7) 0
        [("p1", some 1), ("p2", none), ("p3", some 3)] "u" false).1
      = (((([("p1", some 1), ("p2", none), ("p3", some 3)] :
            List (String × Option Nat)).filter
          (fun p => (optEnv.dumps p.2).isSome)).length : Int), 3) ∧
    (get_property_data optEnv
        (bulk_cache_properties optEnv (initState (Option Nat) Nat 7) 0
          [("p1", some 1), ("p2", none), ("p3", some 3)] "u" false).2
        0 "p1" false).1 = some (some 1) ∧
    (bulk_cache_properties optEnv (initState (Option Nat) Nat 7) 0
        [("a", some 1), ("b", some 2), ("c", some 3)] "u" false).1 = (3, 3) := by
  have h := c6_bulk optEnv (initState (Option Nat) Nat 7) 0
    [("p1", some 1), ("p2", none), ("p3", some 3)] "u" (by decide) (by decide)
  exact ⟨h.1, h.2.1 "p1" (some 1) 1 (by decide) rfl,
    h.2.2 [("a", some 1), ("b", some 2), ("c", some 3)] rfl (by decide)⟩

/-! ### Failure boundary and memory-dictionary invariant -/

theorem dget_dput (k k' : String) (v : α) (l : List (String × α)) :
    dget k (dput k' v l) = if k' = k then some v else dget k l := by
  by_cases hk : k' = k
  · subst hk
    simp
  · simp [hk, dget_dput_ne _ _ hk]

/-- The `try` block of `get_gpt_analysis` always returns normally (its
`except Exception` clause catches storage and deserialization errors), and
it keeps the two memory dictionaries key-aligned. -/
theorem dbLookup_sameKeys (e : Env V B) (s₀ : CacheState V B) (t : Int)
    (h m : String) (fault : Bool) (hs : sameKeys s₀) :
    ∃ o s', dbLookup e s₀ t h m fault = .ok (o, s') ∧ sameKeys s' := by
  rw [dbLookup]
  cases fault with
  | true => exact ⟨none, s₀, rfl, hs⟩
  | false =>
    simp only [if_false, Bool.false_eq_true]
    cases hfind : findAnalysis s₀.gpt h m with
    | none => exact ⟨none, s₀, rfl, hs⟩
    | some row =>
      by_cases hlive : t < row.expires_at
      · simp only [if_pos hlive]
        cases hload : e.loads row.response_data with
        | none => exact ⟨none, s₀, rfl, hs⟩
        | some v =>
          refine ⟨some v, _, rfl, ?_⟩
          intro h'
          show (dget h' (dput h v s₀.memory_cache)).isSome
            ↔ (dget h' (dput h row.expires_at s₀.memory_cache_ttl)).isSome
          rw [dget_dput, dget_dput]
          by_cases hh : h = h'
          · simp [hh]
          · simp only [if_neg hh]
            exact hs h'
      · simp only [if_neg hlive]
        exact ⟨none, _, rfl, hs⟩

/-- `get_gpt_analysis` returns normally on every state whose two memory
dictionaries are key-aligned, and keeps them key-aligned. -/
theorem get_gpt_analysis_sameKeys (e : Env V B) (s : CacheState V B) (t : Int)
    (c m : String) (fault : Bool) (hs : sameKeys s) :
    ∃ o s', get_gpt_analysis e s t c m fault = .ok (o, s') ∧ sameKeys s' := by
  rw [get_gpt_analysis]
  cases hmc : dget (e.md5hex (c ++ m)) s.memory_cache with
  | none => exact dbLookup_sameKeys e s t _ m fault hs
  | some v =>
    have hsome : (dget (e.md5hex (c ++ m)) s.memory_cache_ttl).isSome := by
      rw [← hs]
      rw [hmc]
      rfl
    obtain ⟨ttl, httl⟩ := Option.isSome_iff_exists.mp hsome
    rw [httl]
    by_cases hlive : t < (some ttl).getD t
    · simp only [if_pos hlive]
      exact ⟨some v, _, rfl, hs⟩
    · simp only [if_neg hlive]
      refine dbLookup_sameKeys e _ t _ m fault ?_
      intro h'
      show (dget h' (derase (e.md5hex (c ++ m)) s.memory_cache)).isSome
        ↔ (dget h' (derase (e.md5hex (c ++ m)) s.memory_cache_ttl)).isSome
      rw [dget_derase, dget_derase]
      by_cases hh : e.md5hex (c ++ m) = h'
      · simp [hh]
      · simp only [if_neg hh]
        exact hs h'

/-- C7: no public get/put/bulk/sweep/stats operation lets a storage or
serialization exception escape: under an injected storage fault each
operation returns its absent/failure value with the durable state
untouched; the single exception is schema initialization, whose failure
propagates.  Lookups with unknown keys return absent without throwing and
without creating any row (the state is returned unchanged), and
`get_gpt_analysis` returns normally on every key-aligned state. -/
theorem c7_failure_boundary (e : Env V B) (s : CacheState V B) (t days tok d : Int)
    (c m pid url : String) (v : V) (props : List (String × V)) (ttlo : Option Int)
    (fault : Bool)
    (hmc : dget (e.md5hex (c ++ m)) s.memory_cache = none)
    (hrow : findAnalysis s.gpt (e.md5hex (c ++ m)) m = none)
    (hprow : findProp s.prop pid = none) :
    get_gpt_analysis e s t c m fault = .ok (none, s) ∧
    cache_gpt_analysis e s t c m v tok ttlo true = (false, s) ∧
    get_property_data e s t pid fault = (none, s) ∧
    cache_property_data e s t pid v url ttlo true = (false, s) ∧
    bulk_cache_properties e s t props url true = ((0, (props.length : Int)), s) ∧
    clean_expired_cache s t true = (0, s) ∧
    get_stats s t days true = none ∧
    constructCache V B d true = .error () ∧
    (∀ s' : CacheState V B, sameKeys s' →
      ∃ r, get_gpt_analysis e s' t c m fault = .ok r) := by
  refine ⟨?_, rfl, ?_, rfl, rfl, rfl, rfl, rfl, ?_⟩
  · rw [get_gpt_analysis, hmc]
    show dbLookup e s t (e.md5hex (c ++ m)) m fault = .ok (none, s)
    rw [dbLookup]
    cases fault with
    | true => rfl
    | false =>
      simp only [if_false, Bool.false_eq_true]
      rw [hrow]
  · rw [get_property_data]
    cases fault with
    | true => rfl
    | false =>
      simp only [if_false, Bool.false_eq_true]
      rw [hprow]
  · intro s' hs'
    obtain ⟨o, s'', hrun, _⟩ := get_gpt_analysis_sameKeys e s' t c m fault hs'
    exact ⟨(o, s''), hrun⟩

/-- Witness for C7 at concrete inputs. -/
theorem c7_failure_boundary_witness :
    get_gpt_analysis natEnv (initState Nat Nat 7) 0 "a" "b" false
      = .ok (none, initState Nat Nat 7) ∧
    cache_gpt_analysis natEnv (initState Nat Nat 7) 0 "a" "b" 5 100 none true
      = (false, initState Nat Nat 7) ∧
    get_property_data natEnv (initState Nat Nat 7) 0 "p" false
      = (none, initState Nat Nat 7) ∧
    cache_property_data natEnv (initState Nat Nat 7) 0 "p" 5 "u" none true
      = (false, initState Nat Nat 7) ∧
    bulk_cache_properties natEnv (initState Nat Nat 7) 0 [("p", 5)] "u" true
      = ((0, (([("p", (5 : Nat))] : List (String × Nat)).length : Int)),
         initState Nat Nat 7) ∧
    clean_expired_cache (initState Nat Nat 7) 0 true = (0, initState Nat Nat 7) ∧
    get_stats (initState Nat Nat 7) 0 30 true = none ∧
    constructCache Nat Nat 7 true = .error () ∧
    (∀ s' : CacheState Nat Nat, sameKeys s' →
      ∃ r, get_gpt_analysis natEnv s' 0 "a" "b" false = .ok r) :=
  c7_failure_boundary natEnv (initState Nat Nat 7) 0 30 100 7 "a" "b" "p" "u" 5
    [("p", 5)] none false rfl rfl rfl

/-- C10: the two in-memory dictionaries always hold exactly the same key
set: the invariant holds initially and is preserved by every public
operation, and consequently the expiry-eviction branch of
`get_gpt_analysis` (the unguarded double `del`) never raises a
missing-key error. -/
theorem c10_memory_keys (e : Env V B) (s : CacheState V B) (t tok d days : Int)
    (c m pid url : String) (v : V) (props : List (String × V)) (ttlo : Option Int)
    (fault : Bool) (hs : sameKeys s) :
    sameKeys (initState V B d) ∧
    sameKeys (cache_gpt_analysis e s t c m v tok ttlo fault).2 ∧
    (∃ o s', get_gpt_analysis e s t c m fault = .ok (o, s') ∧ sameKeys s') ∧
    sameKeys (get_property_data e s t pid fault).2 ∧
    sameKeys (cache_property_data e s t pid v url ttlo fault).2 ∧
    sameKeys (bulk_cache_properties e s t props url fault).2 ∧
    sameKeys (clean_expired_cache s t fault).2 ∧
    sameKeys (clear_memory_cache s) ∧
    get_gpt_analysis e s t c m fault ≠ .error () := by
  have hput : sameKeys (cache_gpt_analysis e s t c m v tok ttlo fault).2 := by
    rw [cache_gpt_analysis]
    cases fault with
    | true => exact hs
    | false =>
      simp only [if_false, Bool.false_eq_true]
      cases hd : e.dumps v with
      | none => exact hs
      | some blob =>
        intro h'
        show (dget h' (dput (e.md5hex (c ++ m)) v s.memory_cache)).isSome
          ↔ (dget h' (dput (e.md5hex (c ++ m))
              (t + pyOr ttlo s.ttl_days * dayLen) s.memory_cache_ttl)).isSome
        rw [dget_dput, dget_dput]
        by_cases hh : e.md5hex (c ++ m) = h'
        · simp [hh]
        · simp only [if_neg hh]
          exact hs h'
  have hget := get_gpt_analysis_sameKeys e s t c m fault hs
  refine ⟨?_, hput, hget, ?_, ?_, ?_, ?_, ?_, ?_⟩
  · intro h'
    rfl
  · rw [get_property_data]
    cases fault with
    | true => exact hs
    | false =>
      simp only [if_false, Bool.false_eq_true]
      cases hfind : findProp s.prop pid with
      | none => exact hs
      | some row =>
        by_cases hlive : t < row.expires_at
        · simp only [if_pos hlive]
          cases e.loads row.data <;> exact hs
        · simp only [if_neg hlive]
          exact hs
  · rw [cache_property_data]
    cases fault with
    | true => exact hs
    | false =>
      simp only [if_false, Bool.false_eq_true]
      cases e.dumps v <;> exact hs
  · rw [bulk_cache_properties]
    cases fault <;> exact hs
  · rw [clean_expired_cache]
    cases fault <;> exact hs
  · intro h'
    rfl
  · obtain ⟨o, s', hrun, _⟩ := hget
    rw [hrun]
    intro hcontra
    cases hcontra

/-- Witness for C10 at concrete inputs. -/
theorem c10_memory_keys_witness :
    sameKeys (initState Nat Nat 7) ∧
    sameKeys (cache_gpt_analysis natEnv (initState Nat Nat 7) 0 "a" "b" 5 100 none false).2 ∧
    (∃ o s', get_gpt_analysis natEnv (initState Nat Nat 7) 0 "a" "b" false
        = .ok (o, s') ∧ sameKeys s') ∧
    sameKeys (get_property_data natEnv (initState Nat Nat 7) 0 "p" false).2 ∧
    sameKeys (cache_property_data natEnv (initState Nat Nat 7) 0 "p" 5 "u" none false).2 ∧
    sameKeys (bulk_cache_properties natEnv (initState Nat Nat 7) 0 [("p", 5)] "u" false).2 ∧
    sameKeys (clean_expired_cache (initState Nat Nat 7) 0 false).2 ∧
    sameKeys (clear_memory_cache (initState Nat Nat 7)) ∧
    get_gpt_analysis natEnv (initState Nat Nat 7) 0 "a" "b" false ≠ .error () :=
  c10_memory_keys natEnv (initState Nat Nat 7) 0 100 7 30 "a" "b" "p" "u" 5 [("p", 5)]
    none false (fun h => Iff.rfl)

/-! ### Simulation between the two-tier facade and the memory-less facade

The volatile tier is sound with respect to the durable store as long as
every live memory entry is backed by a durable row holding the same
value, the same deadline, and the model under which the entry's
fingerprint was formed.  `Coh` states exactly that (entries that are
already dead relative to the lower time bound `tb` of all future
operations need no backing row); `INV` couples a two-tier state with a
memory-less state sharing its durable tables. -/

/-- Every memory entry is dead (relative to `tb`) or backed by a durable
row for a `(content, model)` pair drawn from `P`. -/
def Coh (e : Env V B) (P : List (String × String)) (tb : Int) (s : CacheState V B) : Prop :=
  ∀ h v, dget h s.memory_cache = some v →
    ∃ ttl, dget h s.memory_cache_ttl = some ttl ∧
      (ttl ≤ tb ∨ ∃ row, row ∈ s.gpt ∧ row.content_hash = h ∧ row.expires_at = ttl ∧
        e.loads row.response_data = some v ∧
        ∃ pr, pr ∈ P ∧ e.md5hex (pr.1 ++ pr.2) = h ∧ row.model = pr.2)

/-- Simulation invariant: equal durable tables and configuration, a
duplicate-free analysis table, and a coherent memory tier. -/
def INV (e : Env V B) (P : List (String × String)) (tb : Int)
    (sm sn : CacheState V B) : Prop :=
  sm.gpt = sn.gpt ∧ sm.prop = sn.prop ∧ sm.ttl_days = sn.ttl_days ∧
  HashNodup sm.gpt ∧ Coh e P tb sm

theorem Coh_mono (e : Env V B) (P : List (String × String)) {tb t : Int}
    (htb : tb ≤ t) {s : CacheState V B} (hc : Coh e P tb s) : Coh e P t s := by
  intro h v hv
  obtain ⟨ttl, h1, h2⟩ := hc h v hv
  refine ⟨ttl, h1, ?_⟩
  rcases h2 with hdead | hrow
  · exact Or.inl (le_trans hdead htb)
  · exact Or.inr hrow

theorem INV_mono (e : Env V B) (P : List (String × String)) {tb t : Int}
    (htb : tb ≤ t) {sm sn : CacheState V B} (hinv : INV e P tb sm sn) :
    INV e P t sm sn :=
  ⟨hinv.1, hinv.2.1, hinv.2.2.1, hinv.2.2.2.1, Coh_mono e P htb hinv.2.2.2.2⟩

theorem hashNodup_erase {tbl : List (AnalysisRow B)} (hn : HashNodup tbl) (h : String) :
    HashNodup (eraseAnalysis tbl h) :=
  List.Pairwise.sublist (List.filter_sublist _) hn

theorem mem_eraseAnalysis_of_mem {tbl : List (AnalysisRow B)} {r : AnalysisRow B}
    (hr : r ∈ tbl) (hne : r.content_hash ≠ h) : r ∈ eraseAnalysis tbl h := by
  rw [eraseAnalysis, List.mem_filter]
  exact ⟨hr, by simpa using hne⟩

theorem hashNodup_replace {tbl : List (AnalysisRow B)} (hn : HashNodup tbl)
    {h : String} {row : AnalysisRow B} (hh : row.content_hash = h) :
    HashNodup (replaceAnalysis tbl h row) := by
  rw [replaceAnalysis, HashNodup, List.pairwise_append]
  refine ⟨hashNodup_erase hn h, List.pairwise_singleton _ _, ?_⟩
  intro a ha b hb
  have hb' : b = row := by simpa using hb
  subst hb'
  rw [hh]
  exact mem_eraseAnalysis ha

theorem hashNodup_filter {tbl : List (AnalysisRow B)} (hn : HashNodup tbl)
    (p : AnalysisRow B → Bool) : HashNodup (tbl.filter p) :=
  List.Pairwise.sublist (List.filter_sublist _) hn

/-- The durable fall-through of a two-tier `get_gpt_analysis` (its `try`
block, reached with no live memory entry for the fingerprint) is simulated
by the memory-less `get_gpt_analysis`: same returned value, and the
invariant is re-established. -/
theorem dbLookup_vs_nomem (e : Env V B) (P : List (String × String)) (t : Int)
    (c m : String) (sm₁ sn : CacheState V B)
    (hgpt : sm₁.gpt = sn.gpt) (hprop : sm₁.prop = sn.prop)
    (httl : sm₁.ttl_days = sn.ttl_days) (hnd : HashNodup sm₁.gpt)
    (hcoh : Coh e P t sm₁) (hcm : (c, m) ∈ P)
    (hmc₁ : dget (e.md5hex (c ++ m)) sm₁.memory_cache = none) :
    ∃ o sm' sn', dbLookup e sm₁ t (e.md5hex (c ++ m)) m false = .ok (o, sm') ∧
      get_gpt_analysis_nomem e sn t c m false = (o, sn') ∧ INV e P t sm' sn' := by
  rw [dbLookup, get_gpt_analysis_nomem]
  simp only [if_false, Bool.false_eq_true]
  rw [← hgpt]
  cases hfind : findAnalysis sm₁.gpt (e.md5hex (c ++ m)) m with
  | none => exact ⟨none, sm₁, sn, rfl, rfl, hgpt, hprop, httl, hnd, hcoh⟩
  | some row =>
    by_cases hlive : t < row.expires_at
    · simp only [if_pos hlive]
      cases hload : e.loads row.response_data with
      | none => exact ⟨none, sm₁, sn, rfl, rfl, hgpt, hprop, httl, hnd, hcoh⟩
      | some v =>
        refine ⟨some v, _, _, rfl, rfl, hgpt, hprop, httl, hnd, ?_⟩
        intro h' v' hv'
        obtain ⟨hmemr, hhash, hmod⟩ := findAnalysis_eq_some hfind
        rw [_update_stats_memory] at hv'
        by_cases hh : e.md5hex (c ++ m) = h'
        · subst hh
          rw [show ({ sm₁ with
                memory_cache := dput (e.md5hex (c ++ m)) v sm₁.memory_cache,
                memory_cache_ttl := dput (e.md5hex (c ++ m)) row.expires_at
                  sm₁.memory_cache_ttl } : CacheState V B).memory_cache
              = dput (e.md5hex (c ++ m)) v sm₁.memory_cache from rfl,
            dget_dput_self] at hv'
          cases hv'
          refine ⟨row.expires_at, ?_, Or.inr ⟨row, hmemr, hhash, rfl, hload, (c, m), hcm,
            rfl, hmod⟩⟩
          rw [_update_stats_memory_ttl]
          exact dget_dput_self _ _ _
        · rw [show ({ sm₁ with
                memory_cache := dput (e.md5hex (c ++ m)) v sm₁.memory_cache,
                memory_cache_ttl := dput (e.md5hex (c ++ m)) row.expires_at
                  sm₁.memory_cache_ttl } : CacheState V B).memory_cache
              = dput (e.md5hex (c ++ m)) v sm₁.memory_cache from rfl,
            dget_dput_ne _ _ hh] at hv'
          obtain ⟨ttl, h1, h2⟩ := hcoh h' v' hv'
          refine ⟨ttl, ?_, h2⟩
          rw [_update_stats_memory_ttl]
          rw [show ({ sm₁ with
                memory_cache := dput (e.md5hex (c ++ m)) v sm₁.memory_cache,
                memory_cache_ttl := dput (e.md5hex (c ++ m)) row.expires_at
                  sm₁.memory_cache_ttl } : CacheState V B).memory_cache_ttl
              = dput (e.md5hex (c ++ m)) row.expires_at sm₁.memory_cache_ttl from rfl,
            dget_dput_ne _ _ hh]
          exact h1
    · simp only [if_neg hlive]
      refine ⟨none, _, _, rfl, rfl, by rw [hgpt], hprop, httl,
        hashNodup_filter hnd _, ?_⟩
      intro h' v' hv'
      have hv'' : dget h' sm₁.memory_cache = some v' := hv'
      obtain ⟨ttl, h1, h2⟩ := hcoh h' v' hv''
      refine ⟨ttl, h1, ?_⟩
      rcases h2 with hdead | ⟨row₀, hr0, hr1, hr2, hr3, pr, hp1, hp2, hp3⟩
      · exact Or.inl hdead
      · by_cases hh : h' = e.md5hex (c ++ m)
        · exfalso
          rw [← hh] at hmc₁
          rw [hmc₁] at hv''
          cases hv''
        · refine Or.inr ⟨row₀, ?_, hr1, hr2, hr3, pr, hp1, hp2, hp3⟩
          exact mem_eraseAnalysis_of_mem hr0 (by rw [hr1]; exact hh)

/-- One fault-free operation preserves the simulation: the two facades
return the same value and the invariant is re-established at the
operation's timestamp. -/
theorem step_sim (e : Env V B) (P : List (String × String)) (hP : NoCollision e P)
    {tb t : Int} (htb : tb ≤ t) (op : Op V) (hop : ∀ pr ∈ opPairs op, pr ∈ P)
    {sm sn : CacheState V B} (hinv : INV e P tb sm sn) :
    ∃ o sm' sn', stepMem e sm t op = .ok (o, sm') ∧ stepNoMem e sn t op = (o, sn') ∧
      INV e P t sm' sn' := by
  obtain ⟨hgpt, hprop, httlc, hnd, hcoh0⟩ := hinv
  have hcoh := Coh_mono e P htb hcoh0
  cases op with
  | putA c m v tok ttlo =>
    have hcm : (c, m) ∈ P := hop (c, m) (by simp [opPairs])
    simp only [stepMem, stepNoMem, cache_gpt_analysis, cache_gpt_analysis_nomem,
      if_false, Bool.false_eq_true]
    cases hd : e.dumps v with
    | none => exact ⟨.flag false, sm, sn, rfl, rfl, hgpt, hprop, httlc, hnd, hcoh⟩
    | some blob =>
      refine ⟨.flag true, _, _, rfl, rfl, ?_, ?_, ?_, ?_, ?_⟩
      · simp only [_update_stats_gpt, hgpt, httlc]
      · simp only [_update_stats_prop, hprop]
      · simp only [_update_stats_ttl_days, httlc]
      · simp only [_update_stats_gpt]
        exact hashNodup_replace hnd rfl
      · intro h' v' hv'
        simp only [_update_stats_memory] at hv'
        simp only [_update_stats_gpt, _update_stats_memory_ttl]
        by_cases hh : e.md5hex (c ++ m) = h'
        · subst hh
          rw [dget_dput_self] at hv'
          cases hv'
          refine ⟨t + pyOr ttlo sm.ttl_days * dayLen, by rw [dget_dput_self],
            Or.inr ⟨⟨e.md5hex (c ++ m), c.take 200, blob, t,
              t + pyOr ttlo sm.ttl_days * dayLen, m, tok⟩, ?_, rfl, rfl,
              e.load_dump v blob hd, (c, m), hcm, rfl, rfl⟩⟩
          simp [replaceAnalysis]
        · rw [dget_dput_ne _ _ hh] at hv'
          obtain ⟨ttl, h1, h2⟩ := hcoh h' v' hv'
          refine ⟨ttl, by rw [dget_dput_ne _ _ hh]; exact h1, ?_⟩
          rcases h2 with hdead | ⟨row₀, hr0, hr1, hr2, hr3, pr, hp1, hp2, hp3⟩
          · exact Or.inl hdead
          · refine Or.inr ⟨row₀, ?_, hr1, hr2, hr3, pr, hp1, hp2, hp3⟩
            rw [replaceAnalysis]
            exact List.mem_append_left _
              (mem_eraseAnalysis_of_mem hr0 (by rw [hr1]; exact fun hq => hh hq.symm))
  | getA c m =>
    have hcm : (c, m) ∈ P := hop (c, m) (by simp [opPairs])
    cases hmc : dget (e.md5hex (c ++ m)) sm.memory_cache with
    | none =>
      obtain ⟨o, sm', sn', h1, h2, h3⟩ :=
        dbLookup_vs_nomem e P t c m sm sn hgpt hprop httlc hnd hcoh hcm hmc
      refine ⟨.val o, sm', sn', ?_, ?_, h3⟩
      · rw [stepMem, get_gpt_analysis, hmc]
        rw [show (match (none : Option V) with
            | some v =>
              if t < (dget (e.md5hex (c ++ m)) sm.memory_cache_ttl).getD t then
                Except.ok (some v, _update_stats sm t false true 0)
              else
                match dget (e.md5hex (c ++ m)) sm.memory_cache_ttl with
                | some _ =>
                  dbLookup e
                    { sm with
                      memory_cache := derase (e.md5hex (c ++ m)) sm.memory_cache,
                      memory_cache_ttl := derase (e.md5hex (c ++ m)) sm.memory_cache_ttl }
                    t (e.md5hex (c ++ m)) m false
                | none => Except.error ()
            | none => dbLookup e sm t (e.md5hex (c ++ m)) m false)
            = dbLookup e sm t (e.md5hex (c ++ m)) m false from rfl]
        rw [h1]
        rfl
      · rw [stepNoMem, h2]
    | some v =>
      obtain ⟨ttl, httl', hdisj⟩ := hcoh _ v hmc
      by_cases hlive : t < ttl
      · rcases hdisj with hdead | ⟨row, hr0, hr1, hr2, hr3, pr, hp1, hp2, hp3⟩
        · exact absurd hlive (by omega)
        · have hpr : pr = (c, m) := hP pr hp1 (c, m) hcm (by rw [hp2])
          subst hpr
          have hfind : findAnalysis sn.gpt (e.md5hex (c ++ m)) m = some row := by
            rw [← hgpt]
            exact findAnalysis_of_mem hnd hr0 hr1 hp3
          have hg : get_gpt_analysis e sm t c m false
              = .ok (some v, _update_stats sm t false true 0) := by
            rw [get_gpt_analysis, hmc, httl']
            simp only [Option.getD_some, if_pos hlive]
          refine ⟨.val (some v), _update_stats sm t false true 0,
            _update_stats sn t false true row.token_count,
            by rw [stepMem, hg]; rfl, ?_, ?_, ?_, ?_, ?_, ?_⟩
          · rw [stepNoMem, get_gpt_analysis_nomem]
            simp only [if_false, Bool.false_eq_true]
            rw [hfind]
            simp only [if_pos (show t < row.expires_at by omega), hr3]
          · exact hgpt
          · exact hprop
          · exact httlc
          · exact hnd
          · exact hcoh
      · have hg : get_gpt_analysis e sm t c m false
            = dbLookup e
              { sm with
                memory_cache := derase (e.md5hex (c ++ m)) sm.memory_cache,
                memory_cache_ttl := derase (e.md5hex (c ++ m)) sm.memory_cache_ttl }
              t (e.md5hex (c ++ m)) m false := by
          rw [get_gpt_analysis, hmc, httl']
          simp only [Option.getD_some, if_neg hlive]
        have hcoh₁ : Coh e P t ({ sm with
            memory_cache := derase (e.md5hex (c ++ m)) sm.memory_cache,
            memory_cache_ttl := derase (e.md5hex (c ++ m)) sm.memory_cache_ttl } :
              CacheState V B) := by
          intro h' v' hv'
          by_cases hh : e.md5hex (c ++ m) = h'
          · subst hh
            rw [show dget (e.md5hex (c ++ m)) ({ sm with
                memory_cache := derase (e.md5hex (c ++ m)) sm.memory_cache,
                memory_cache_ttl := derase (e.md5hex (c ++ m)) sm.memory_cache_ttl } :
                  CacheState V B).memory_cache
              = dget (e.md5hex (c ++ m)) (derase (e.md5hex (c ++ m)) sm.memory_cache)
              from rfl, dget_derase_self] at hv'
            cases hv'
          · rw [show dget h' ({ sm with
                memory_cache := derase (e.md5hex (c ++ m)) sm.memory_cache,
                memory_cache_ttl := derase (e.md5hex (c ++ m)) sm.memory_cache_ttl } :
                  CacheState V B).memory_cache
              = dget h' (derase (e.md5hex (c ++ m)) sm.memory_cache) from rfl,
              dget_derase_ne _ _ hh] at hv'
            obtain ⟨ttl', h1, h2⟩ := hcoh h' v' hv'
            refine ⟨ttl', ?_, h2⟩
            rw [show dget h' ({ sm with
                memory_cache := derase (e.md5hex (c ++ m)) sm.memory_cache,
                memory_cache_ttl := derase (e.md5hex (c ++ m)) sm.memory_cache_ttl } :
                  CacheState V B).memory_cache_ttl
              = dget h' (derase (e.md5hex (c ++ m)) sm.memory_cache_ttl) from rfl,
              dget_derase_ne _ _ hh]
            exact h1
        obtain ⟨o, sm', sn', h1, h2, h3⟩ :=
          dbLookup_vs_nomem e P t c m
            { sm with memory_cache := derase (e.md5hex (c ++ m)) sm.memory_cache,
                      memory_cache_ttl := derase (e.md5hex (c ++ m)) sm.memory_cache_ttl }
            sn hgpt hprop httlc hnd hcoh₁ hcm (dget_derase_self _ _)
        refine ⟨.val o, sm', sn', ?_, ?_, h3⟩
        · rw [stepMem, hg, h1]
          rfl
        · rw [stepNoMem, h2]
  | putP pid v url ttlo =>
    simp only [stepMem, stepNoMem, cache_property_data, if_false, Bool.false_eq_true]
    cases hd : e.dumps v with
    | none => exact ⟨.flag false, sm, sn, rfl, rfl, hgpt, hprop, httlc, hnd, hcoh⟩
    | some blob =>
      refine ⟨.flag true, _, _, rfl, rfl, hgpt, ?_, httlc, hnd, hcoh⟩
      simp only [hprop, httlc]
  | getP pid =>
    simp only [stepMem, stepNoMem, get_property_data, if_false, Bool.false_eq_true]
    rw [← hprop]
    cases hfind : findProp sm.prop pid with
    | none => exact ⟨.val none, sm, sn, rfl, rfl, hgpt, hprop, httlc, hnd, hcoh⟩
    | some row =>
      by_cases hlive : t < row.expires_at
      · simp only [if_pos hlive]
        cases hload : e.loads row.data with
        | some v =>
          refine ⟨.val (some v), _, _, rfl, rfl, hgpt, ?_, httlc, hnd, hcoh⟩
          simp only [hprop]
        | none =>
          refine ⟨.val none, _, _, rfl, rfl, hgpt, ?_, httlc, hnd, hcoh⟩
          simp only [hprop]
      · simp only [if_neg hlive]
        refine ⟨.val none, _, _, rfl, rfl, hgpt, ?_, httlc, hnd, hcoh⟩
        simp only [hprop]
  | bulkP props url =>
    simp only [stepMem, stepNoMem, bulk_cache_properties, if_false, Bool.false_eq_true]
    have hbe : bulkInsert e t (t + sn.ttl_days * dayLen) url props sn.prop 0
        = bulkInsert e t (t + sm.ttl_days * dayLen) url props sm.prop 0 := by
      rw [hprop, httlc]
    rw [hbe]
    exact ⟨.cnt ((bulkInsert e t (t + sm.ttl_days * dayLen) url props sm.prop 0).1,
      (props.length : Int)), _, _, rfl, rfl, hgpt, rfl, httlc, hnd, hcoh⟩
  | sweep =>
    simp only [stepMem, stepNoMem, clean_expired_cache, if_false, Bool.false_eq_true]
    rw [← hgpt, ← hprop]
    refine ⟨.num _, _, _, rfl, rfl, rfl, rfl, httlc, hashNodup_filter hnd _, ?_⟩
    intro h' v' hv'
    have hv'' : dget h' sm.memory_cache = some v' := hv'
    obtain ⟨ttl, h1, h2⟩ := hcoh h' v' hv''
    refine ⟨ttl, h1, ?_⟩
    rcases h2 with hdead | ⟨row₀, hr0, hr1, hr2, hr3, pr, hp1, hp2, hp3⟩
    · exact Or.inl hdead
    · by_cases hexp : row₀.expires_at < t
      · exact Or.inl (by omega)
      · refine Or.inr ⟨row₀, ?_, hr1, hr2, hr3, pr, hp1, hp2, hp3⟩
        rw [List.mem_filter]
        exact ⟨hr0, by simpa using hexp⟩
  | clearMem =>
    refine ⟨.unit, clear_memory_cache sm, clear_memory_cache sn, rfl, rfl,
      hgpt, hprop, httlc, hnd, ?_⟩
    intro h' v' hv'
    cases hv'

/-- A chronological, collision-free, fault-free operation sequence produces
the same outputs under both facades. -/
theorem run_sim (e : Env V B) (P : List (String × String)) (hP : NoCollision e P) :
    ∀ (tr : List (Int × Op V)) (tb : Int) (sm sn : CacheState V B),
      (∀ x ∈ tr, tb ≤ x.1) → tr.Pairwise (fun a b => a.1 ≤ b.1) →
      (∀ x ∈ tr, ∀ pr ∈ opPairs x.2, pr ∈ P) →
      INV e P tb sm sn →
      ∃ outs sm' sn', runMem e tr sm = .ok (outs, sm') ∧
        runNoMem e tr sn = (outs, sn') := by
  intro tr
  induction tr with
  | nil =>
    intro tb sm sn _ _ _ _
    exact ⟨[], sm, sn, rfl, rfl⟩
  | cons x rest ih =>
    intro tb sm sn hbound hsort hpairs hinv
    obtain ⟨t, op⟩ := x
    obtain ⟨o, sm1, sn1, hstep, hstepn, hinv1⟩ :=
      step_sim e P hP (hbound (t, op) (List.mem_cons_self _ _)) op
        (hpairs (t, op) (List.mem_cons_self _ _)) hinv
    obtain ⟨outs, sm', sn', hrun, hrunn⟩ :=
      ih t sm1 sn1
        (fun y hy => (List.pairwise_cons.mp hsort).1 y hy)
        (List.pairwise_cons.mp hsort).2
        (fun y hy => hpairs y (List.mem_cons_of_mem _ hy))
        hinv1
    refine ⟨o :: outs, sm', sn', ?_, ?_⟩
    · rw [runMem, hstep]
      show (runMem e rest sm1).bind _ = _
      rw [hrun]
      rfl
    · rw [runNoMem, hstepn, hrunn]

/-- C4 (amended): in a fault-free, chronologically ordered operation
sequence in which no two distinct `(content, model)` pairs collide on the
fingerprint of their concatenation, the facade with the memory cache
returns exactly the same values as the facade without it (the statistics
counters may still differ — a memory hit records `tokens_saved = 0` where
a durable hit records the row's token count — so `get_stats` output is
outside the equivalence).  Moreover, after a durable hit is promoted into
the memory cache, a second immediate `get_gpt_analysis` for the same
content and model returns the identical value without performing a
durable-store query (it succeeds even under a storage fault) and still
records a cache hit. -/
theorem c4_volatile_refinement (e : Env V B) (d : Int) (tr : List (Int × Op V))
    (hsort : tr.Pairwise (fun a b => a.1 ≤ b.1))
    (hP : NoCollision e (tracePairs tr)) :
    (∃ outs sm' sn', runMem e tr (initState V B d) = .ok (outs, sm') ∧
        runNoMem e tr (initState V B d) = (outs, sn')) ∧
    (∀ (s : CacheState V B) (t t' : Int) (c m : String) (row : AnalysisRow B) (v : V)
        (fault' : Bool),
      dget (e.md5hex (c ++ m)) s.memory_cache = none →
      findAnalysis s.gpt (e.md5hex (c ++ m)) m = some row →
      e.loads row.response_data = some v →
      t < row.expires_at → t' < row.expires_at →
      ∃ s₁, get_gpt_analysis e s t c m false = .ok (some v, s₁) ∧
        get_gpt_analysis e s₁ t' c m fault'
          = .ok (some v, _update_stats s₁ t' false true 0)) := by
  constructor
  · cases tr with
    | nil => exact ⟨[], initState V B d, initState V B d, rfl, rfl⟩
    | cons x rest =>
      have hinv : INV e (tracePairs (x :: rest)) x.1 (initState V B d) (initState V B d) :=
        ⟨rfl, rfl, rfl, List.Pairwise.nil, fun h v hv => by cases hv⟩
      refine run_sim e (tracePairs (x :: rest)) hP (x :: rest) x.1 _ _ ?_ hsort ?_ hinv
      · intro y hy
        rcases List.mem_cons.mp hy with rfl | hy'
        · exact le_refl _
        · exact (List.pairwise_cons.mp hsort).1 y hy'
      · intro y hy pr hpr
        rw [tracePairs, List.mem_flatten]
        exact ⟨opPairs y.2, List.mem_map_of_mem _ hy, hpr⟩
  · intro s t t' c m row v fault' hmc hfind hload hlive hlive'
    have hg : get_gpt_analysis e s t c m false
        = .ok (some v, _update_stats { s with
            memory_cache := dput (e.md5hex (c ++ m)) v s.memory_cache,
            memory_cache_ttl := dput (e.md5hex (c ++ m)) row.expires_at
              s.memory_cache_ttl } t false true row.token_count) := by
      rw [get_gpt_analysis, hmc]
      show dbLookup e s t (e.md5hex (c ++ m)) m false = _
      rw [dbLookup]
      simp only [if_false, Bool.false_eq_true]
      rw [hfind]
      simp only [if_pos hlive, hload]
    refine ⟨_, hg, ?_⟩
    rw [get_gpt_analysis]
    rw [show dget (e.md5hex (c ++ m)) (_update_stats { s with
          memory_cache := dput (e.md5hex (c ++ m)) v s.memory_cache,
          memory_cache_ttl := dput (e.md5hex (c ++ m)) row.expires_at
            s.memory_cache_ttl } t false true row.token_count).memory_cache
        = dget (e.md5hex (c ++ m)) (dput (e.md5hex (c ++ m)) v s.memory_cache) from rfl]
    rw [dget_dput_self]
    rw [show dget (e.md5hex (c ++ m)) (_update_stats { s with
          memory_cache := dput (e.md5hex (c ++ m)) v s.memory_cache,
          memory_cache_ttl := dput (e.md5hex (c ++ m)) row.expires_at
            s.memory_cache_ttl } t false true row.token_count).memory_cache_ttl
        = dget (e.md5hex (c ++ m)) (dput (e.md5hex (c ++ m)) row.expires_at
            s.memory_cache_ttl) from rfl]
    rw [dget_dput_self]
    simp only [Option.getD_some, if_pos hlive']

/-- C4 as stated is false on the code, in two ways.  (i) With the colliding
pairs `("ab", "c")` and `("a", "bc")` (equal concatenations), the two-tier
facade answers `get_gpt_analysis("a", "bc")` from the memory cache with the
value stored under `("ab", "c")`, while the facade without the memory cache
consults the durable store, filters by `model = "bc"`, and reports absent —
different returned values for the same operation sequence.  (ii) Even
without collisions the two facades diverge on the recorded statistics
(memory hit: `tokens_saved += 0`; durable hit: `tokens_saved += 5`), so
`get_stats` reports different values. -/
theorem c4_counterexample :
    ((runMem natEnv [(0, Op.putA "ab" "c" (9 : Nat) 5 none), (0, Op.getA "a" "bc")]
        (initState Nat Nat 7)).map Prod.fst
      = .ok [Out.flag true, Out.val (some 9)] ∧
     (runNoMem natEnv [(0, Op.putA "ab" "c" (9 : Nat) 5 none), (0, Op.getA "a" "bc")]
        (initState Nat Nat 7)).1
      = [Out.flag true, Out.val none] ∧
     (Out.val (some (9 : Nat)) : Out Nat) ≠ Out.val none) ∧
    (((get_gpt_analysis natEnv
        (cache_gpt_analysis natEnv (initState Nat Nat 7) 0 "a" "b" 9 5 none false).2
        0 "a" "b" false).map
        (fun r => (get_stats r.2 0 0 false).map (fun agg => agg.tokens_saved)))
      = .ok (some 0) ∧
     ((get_stats (get_gpt_analysis_nomem natEnv
        (cache_gpt_analysis_nomem natEnv (initState Nat Nat 7) 0 "a" "b" 9 5 none false).2
        0 "a" "b" false).2 0 0 false).map (fun agg => agg.tokens_saved))
      = some 5 ∧
     (0 : Int) ≠ 5) :=
  ⟨⟨rfl, rfl, by decide⟩, ⟨rfl, rfl, by decide⟩⟩

/-- Witness for C4 (amended) at a concrete collision-free trace. -/
theorem c4_volatile_refinement_witness :
    (∃ outs sm' sn', runMem natEnv
        [(0, Op.putA "a" "b" (9 : Nat) 5 none), (1, Op.getA "a" "b"), (2, Op.sweep)]
        (initState Nat Nat 7) = .ok (outs, sm') ∧
      runNoMem natEnv
        [(0, Op.putA "a" "b" (9 : Nat) 5 none), (1, Op.getA "a" "b"), (2, Op.sweep)]
        (initState Nat Nat 7) = (outs, sn')) ∧
    (∀ (s : CacheState Nat Nat) (t t' : Int) (c m : String) (row : AnalysisRow Nat)
        (v : Nat) (fault' : Bool),
      dget (natEnv.md5hex (c ++ m)) s.memory_cache = none →
      findAnalysis s.gpt (natEnv.md5hex (c ++ m)) m = some row →
      natEnv.loads row.response_data = some v →
      t < row.expires_at → t' < row.expires_at →
      ∃ s₁, get_gpt_analysis natEnv s t c m false = .ok (some v, s₁) ∧
        get_gpt_analysis natEnv s₁ t' c m fault'
          = .ok (some v, _update_stats s₁ t' false true 0)) :=
  c4_volatile_refinement natEnv 7
    [(0, Op.putA "a" "b" (9 : Nat) 5 none), (1, Op.getA "a" "b"), (2, Op.sweep)]
    (by decide) (by unfold NoCollision; decide)

end PropertyCache
